import Mathlib

/-!
Verification of the voice-mesh subsystem of X-Code-Compiler.

The definitions below are a shallow embedding of the client component
`src/components/voice-chat.tsx` (the WebRTC mesh: peer-connection map,
offer/answer/ICE handlers, mute/unmute effects, presence event handlers,
voice-activity broadcasting) and of the server route
`src/app/api/voice/presence/route.ts`.

Modelling conventions:
- `RTCPeerConnection` is modelled by its signaling-plane observables
  (current/pending local/remote descriptions, outbound senders, added
  remote ICE candidates), following the WebRTC description-slot semantics.
- Asynchronous awaits (SDP creation, the 2-second ICE-gathering wait) are
  modelled by oracle parameters supplying what the environment produced
  (the SDP body, the list of gathered candidates); each TS handler becomes
  a pure function from state to state plus the list of signaling messages
  it sends.
- The only media in the app is microphone audio (`getUserMedia` is called
  with `video: false`), so every capture track has kind `audio`.
-/

namespace XCC

/-- Remote participants are identified by opaque client-id strings. -/
abbrev PeerId := String

/-- Kind of a media track (`track.kind` in the browser). -/
inductive TrackKind
  | audio
  | video
deriving DecidableEq

/-- A media track; the id stands for the underlying MediaStreamTrack object. -/
structure Track where
  id : Nat
  kind : TrackKind
deriving DecidableEq

/-- Boolean test mirroring `track.kind === "audio"`. -/
def Track.isAudio : Track → Bool :=
  fun t => match t.kind with
  | TrackKind.audio => true
  | TrackKind.video => false

/-- The model of `stream.getAudioTracks()`. -/
def audioTracks (stream : List Track) : List Track :=
  stream.filter Track.isAudio

/-- The `type` field of an RTCSessionDescription. -/
inductive DescType
  | offer
  | answer
  | rollback
deriving DecidableEq

/-- A session description: its type, an opaque SDP body, and the ICE
candidates embedded in the SDP (candidates gathered before the description
is read back from `pc.localDescription`). -/
structure Description where
  dtype : DescType
  sdp : Nat
  cands : List Nat
deriving DecidableEq

/-- The WebRTC signaling states reachable in this client. -/
inductive SigState
  | stable
  | haveLocalOffer
  | haveRemoteOffer
deriving DecidableEq

/-- The signaling-plane observables of a browser RTCPeerConnection:
current and pending description slots, the outbound senders added with
`addTrack`, and the remote candidates added with `addIceCandidate`. -/
structure RTCPeerConnection where
  currentLocal : Option Description
  currentRemote : Option Description
  pendingLocal : Option Description
  pendingRemote : Option Description
  senders : List Track
  remoteCandidates : List Nat
deriving DecidableEq

/-- The value of `pc.signalingState`, derived from the pending slots. -/
def RTCPeerConnection.signalingState (pc : RTCPeerConnection) : SigState :=
  match pc.pendingLocal with
  | some _ => SigState.haveLocalOffer
  | none =>
    match pc.pendingRemote with
    | some _ => SigState.haveRemoteOffer
    | none => SigState.stable

/-- The value of `pc.localDescription` (pending slot shadows current). -/
def RTCPeerConnection.localDescription (pc : RTCPeerConnection) : Option Description :=
  match pc.pendingLocal with
  | some d => some d
  | none => pc.currentLocal

/-- The value of `pc.remoteDescription` (pending slot shadows current). -/
def RTCPeerConnection.remoteDescription (pc : RTCPeerConnection) : Option Description :=
  match pc.pendingRemote with
  | some d => some d
  | none => pc.currentRemote

/-- Browser semantics of `pc.setLocalDescription(d)` on the description
slots.  An offer becomes the pending local description; an answer promotes
the pending remote offer and the answer to current, clearing the pending
slots; a rollback discards the pending slots.  Invalid operations (an
answer with no pending remote offer) leave the connection unchanged; the
client code never performs them. -/
def setLocalDescription (pc : RTCPeerConnection) (d : Description) : RTCPeerConnection :=
  match d.dtype with
  | DescType.offer => { pc with pendingLocal := some d }
  | DescType.answer =>
    match pc.pendingRemote with
    | some r =>
      { pc with currentLocal := some d, currentRemote := some r,
                pendingLocal := none, pendingRemote := none }
    | none => pc
  | DescType.rollback => { pc with pendingLocal := none, pendingRemote := none }

/-- Browser semantics of `pc.setRemoteDescription(d)`, symmetric to
`setLocalDescription`. -/
def setRemoteDescription (pc : RTCPeerConnection) (d : Description) : RTCPeerConnection :=
  match d.dtype with
  | DescType.offer => { pc with pendingRemote := some d }
  | DescType.answer =>
    match pc.pendingLocal with
    | some l =>
      { pc with currentLocal := some l, currentRemote := some d,
                pendingLocal := none, pendingRemote := none }
    | none => pc
  | DescType.rollback => { pc with pendingLocal := none, pendingRemote := none }

/-- After the client awaits ICE gathering (until `complete` or the
2-second timeout), the candidates gathered so far appear in the SDP of the
local description that `pc.localDescription` returns.  `gathered` is the
oracle for what gathering produced in that window. -/
def attachGathered (pc : RTCPeerConnection) (gathered : List Nat) : RTCPeerConnection :=
  match pc.pendingLocal with
  | some d => { pc with pendingLocal := some { d with cands := gathered } }
  | none =>
    match pc.currentLocal with
    | some d => { pc with currentLocal := some { d with cands := gathered } }
    | none => pc

/-- The hidden `HTMLAudioElement` created per peer (the media sink). -/
structure AudioElement where
  autoplay : Bool
  muted : Bool
  srcObject : Option Nat
  paused : Bool
deriving DecidableEq

/-- The TS `PeerConnection` record stored per peer: the RTCPeerConnection
and the audio sink element (voice-chat.tsx lines 22-25). -/
structure PeerConnection where
  connection : RTCPeerConnection
  audio : AudioElement
deriving DecidableEq

/-- Association-list lookup, modelling `peerConnectionsRef.current[k]`. -/
def alookup {β : Type _} (k : PeerId) : List (PeerId × β) → Option β
  | [] => none
  | (k', v) :: rest => if k' = k then some v else alookup k rest

/-- Association-list write, modelling `peerConnectionsRef.current[k] = v`
(replace the entry if the key exists, append otherwise). -/
def aset {β : Type _} (k : PeerId) (v : β) : List (PeerId × β) → List (PeerId × β)
  | [] => [(k, v)]
  | (k', v') :: rest => if k' = k then (k, v) :: rest else (k', v') :: aset k v rest

/-- Association-list delete, modelling `delete peerConnectionsRef.current[k]`. -/
def aerase {β : Type _} (k : PeerId) : List (PeerId × β) → List (PeerId × β)
  | [] => []
  | (k', v') :: rest => if k' = k then rest else (k', v') :: aerase k rest

/-- Key list of an association list. -/
def keys {β : Type _} (l : List (PeerId × β)) : List PeerId :=
  l.map Prod.fst

/-- The keys are pairwise distinct (at most one entry per peer id). -/
def keysNodup {β : Type _} (l : List (PeerId × β)) : Prop :=
  (keys l).Nodup

instance keysNodupDecidable {β : Type _} (l : List (PeerId × β)) :
    Decidable (keysNodup l) :=
  inferInstanceAs (Decidable (keys l).Nodup)

/-- Payload of a `client-signal` relay message (the tagged forms the
dispatcher in voice-chat.tsx lines 116-139 distinguishes). -/
inductive Signal
  | desc (d : Description)
  | candidate (c : Nat)
  | speaking (b : Bool)
  | mute
deriving DecidableEq

/-- A signaling message sent through `sendSignal` (voice-chat.tsx lines
714-731): addressed to one peer, carrying one payload. -/
structure OutMsg where
  targetClientId : PeerId
  signal : Signal
deriving DecidableEq

/-- The mutable state of one VoiceChat component instance: the React
state (`isMuted`, `isAudioEnabled`, `activeUsers`, `talkingUsers`) and the
refs (`localStreamRef`, `peerConnectionsRef`).  `stoppedTracks` records
every capture track on which `track.stop()` has been called (device
release). -/
structure VoiceChatState where
  isMuted : Bool
  isAudioEnabled : Bool
  activeUsers : List PeerId
  talkingUsers : List PeerId
  localStream : Option (List Track)
  stoppedTracks : List Track
  peerConnections : List (PeerId × PeerConnection)
deriving DecidableEq

/-- Model of `new RTCPeerConnection(...)` followed by the local-track
attachment in `createPeerConnection` (voice-chat.tsx lines 454-460): a
fresh connection in stable state whose senders are the current local
audio tracks, if a capture stream exists. -/
def newRTCPeerConnection (localTracks : List Track) : RTCPeerConnection :=
  { currentLocal := none, currentRemote := none,
    pendingLocal := none, pendingRemote := none,
    senders := localTracks, remoteCandidates := [] }

/-- Model of the audio element created in `createPeerConnection`
(voice-chat.tsx lines 388-393): autoplay on, muted unless audio output is
enabled, no stream attached yet. -/
def newAudioElement (isAudioEnabled : Bool) : AudioElement :=
  { autoplay := true, muted := !isAudioEnabled, srcObject := none, paused := true }

/-- The local audio tracks a freshly created connection starts with
(voice-chat.tsx lines 454-460): the capture stream's audio tracks when a
stream exists, none otherwise. -/
def currentLocalTracks (s : VoiceChatState) : List Track :=
  match s.localStream with
  | some stream => audioTracks stream
  | none => []

/-- Embedding of `createPeerConnection` (voice-chat.tsx lines 360-491):
if an entry for the peer already exists it is returned unchanged,
otherwise a fresh connection (with its audio sink, and with the local
audio tracks added as senders when a capture stream exists) is stored in
the map and returned. -/
def createPeerConnection (s : VoiceChatState) (peerId : PeerId) :
    VoiceChatState × PeerConnection :=
  match alookup peerId s.peerConnections with
  | some link => (s, link)
  | none =>
    let link : PeerConnection :=
      { connection := newRTCPeerConnection (currentLocalTracks s),
        audio := newAudioElement s.isAudioEnabled }
    ({ s with peerConnections := aset peerId link s.peerConnections }, link)

/-- Embedding of `closePeerConnection` (voice-chat.tsx lines 535-563):
close the connection, tear down the audio element, delete the map entry,
and drop the peer from the talking set.  A missing peer is a no-op. -/
def closePeerConnection (s : VoiceChatState) (peerId : PeerId) : VoiceChatState :=
  match alookup peerId s.peerConnections with
  | none => s
  | some _ =>
    let m := aerase peerId s.peerConnections
    let talking := s.talkingUsers.filter (fun q => decide (q ≠ peerId))
    { s with peerConnections := m, talkingUsers := talking }

/-- The argument of `setLocalDescription({ type: "rollback" })`. -/
def rollbackDesc : Description :=
  { dtype := DescType.rollback, sdp := 0, cands := [] }

/-- Embedding of `createAndSendOffer` (voice-chat.tsx lines 565-598):
create an offer, set it as local description, await ICE gathering
(complete or 2-second timeout; `gathered` is what the window produced),
then send `pc.localDescription` — one message carrying the batched
candidates.  `offerSdp` is the oracle for the SDP body `createOffer`
produced.  The call sites always pass the map entry's connection, so the
embedding locates the connection through the map. -/
def createAndSendOffer (s : VoiceChatState) (peerId : PeerId)
    (offerSdp : Nat) (gathered : List Nat) : VoiceChatState × List OutMsg :=
  match alookup peerId s.peerConnections with
  | none => (s, [])
  | some link =>
    let offer : Description := { dtype := DescType.offer, sdp := offerSdp, cands := [] }
    let pc1 := setLocalDescription link.connection offer
    let pc2 := attachGathered pc1 gathered
    let sent : Description :=
      match pc2.localDescription with
      | some d => d
      | none => offer
    let m := aset peerId { link with connection := pc2 } s.peerConnections
    ({ s with peerConnections := m },
     [{ targetClientId := peerId, signal := Signal.desc sent }])

/-- Embedding of `handleOffer` (voice-chat.tsx lines 600-662): reuse or
create the peer's connection; if the signaling state is not stable, roll
back; set the remote description to the offer; create and set a local
answer (`ansSdp` is the oracle for its SDP body); await ICE gathering
(`gathered`); send `pc.localDescription` back to the offering peer. -/
def handleOffer (s : VoiceChatState) (peerId : PeerId) (offer : Description)
    (ansSdp : Nat) (gathered : List Nat) : VoiceChatState × List OutMsg :=
  let created := createPeerConnection s peerId
  let s1 := created.fst
  let link := created.snd
  let pc0 := link.connection
  let pc1 :=
    if pc0.signalingState ≠ SigState.stable then setLocalDescription pc0 rollbackDesc else pc0
  let pc2 := setRemoteDescription pc1 offer
  let answer : Description := { dtype := DescType.answer, sdp := ansSdp, cands := [] }
  let pc3 := setLocalDescription pc2 answer
  let pc4 := attachGathered pc3 gathered
  let sent : Description :=
    match pc4.localDescription with
    | some d => d
    | none => answer
  let m := aset peerId { link with connection := pc4 } s1.peerConnections
  ({ s1 with peerConnections := m },
   [{ targetClientId := peerId, signal := Signal.desc sent }])

/-- Embedding of `handleAnswer` (voice-chat.tsx lines 664-689): the
remote description is set only when a connection for the peer exists and
its signaling state is exactly have-local-offer; otherwise the message is
logged and discarded. -/
def handleAnswer (s : VoiceChatState) (peerId : PeerId) (answer : Description) :
    VoiceChatState × List OutMsg :=
  match alookup peerId s.peerConnections with
  | none => (s, [])
  | some link =>
    if link.connection.signalingState = SigState.haveLocalOffer then
      let m :=
        aset peerId { link with connection := setRemoteDescription link.connection answer }
          s.peerConnections
      ({ s with peerConnections := m }, [])
    else (s, [])

/-- Embedding of `handleIceCandidate` (voice-chat.tsx lines 691-712): the
candidate is added only when a connection for the peer exists and a
remote description is set; otherwise it is logged and dropped (not
queued). -/
def handleIceCandidate (s : VoiceChatState) (peerId : PeerId) (c : Nat) :
    VoiceChatState × List OutMsg :=
  match alookup peerId s.peerConnections with
  | none => (s, [])
  | some link =>
    match link.connection.remoteDescription with
    | some _ =>
      let pc' := { link.connection with remoteCandidates := link.connection.remoteCandidates ++ [c] }
      let m := aset peerId { link with connection := pc' } s.peerConnections
      ({ s with peerConnections := m }, [])
    | none => (s, [])

/-- Embedding of the `pc.onicecandidate` handler registered in
`createPeerConnection` (voice-chat.tsx lines 482-488): every non-null
gathered candidate is sent to the peer as its own signaling message. -/
def onIceCandidate (s : VoiceChatState) (peerId : PeerId) (c : Option Nat) :
    VoiceChatState × List OutMsg :=
  match c with
  | some cand => (s, [{ targetClientId := peerId, signal := Signal.candidate cand }])
  | none => (s, [])

/-- Embedding of the `voice-user-joined` handler (voice-chat.tsx lines
144-170): ignore the own id; add the peer to `activeUsers` if new; create
a peer connection if none exists.  The deferred `createAndSendOffer`
scheduled with `setTimeout(…, 1000)` is modelled by the separate
`Event.offerTimer` event. -/
def voiceUserJoined (selfId : PeerId) (s : VoiceChatState) (cid : PeerId) : VoiceChatState :=
  if cid = selfId then s
  else
    let users := if cid ∈ s.activeUsers then s.activeUsers else s.activeUsers ++ [cid]
    let s1 := { s with activeUsers := users }
    match alookup cid s1.peerConnections with
    | some _ => s1
    | none => (createPeerConnection s1 cid).fst

/-- Embedding of the `voice-user-left` handler (voice-chat.tsx lines
172-178): ignore the own id; remove the peer from `activeUsers` and close
its peer connection. -/
def voiceUserLeft (selfId : PeerId) (s : VoiceChatState) (cid : PeerId) : VoiceChatState :=
  if cid = selfId then s
  else
    let users := s.activeUsers.filter (fun q => decide (q ≠ cid))
    closePeerConnection { s with activeUsers := users } cid

/-- Embedding of the muted branch of the `isMuted` effect (voice-chat.tsx
lines 231-245): when a capture stream exists, stop every one of its
tracks, release the stream reference, and send a mute signal to every
peer in the connection map.  The peer connections themselves (their
senders and descriptions) are not touched. -/
def onMuteTrue (s : VoiceChatState) : VoiceChatState × List OutMsg :=
  let s0 := { s with isMuted := true }
  match s0.localStream with
  | none => (s0, [])
  | some stream =>
    ({ s0 with localStream := none, stoppedTracks := s0.stoppedTracks ++ stream },
     s0.peerConnections.map (fun pl => { targetClientId := pl.fst, signal := Signal.mute }))

/-- Embedding of one animation frame of `detectVoiceActivity`
(voice-chat.tsx lines 285-309): compute the average amplitude of the
analysis buffer and, when it exceeds the threshold 20, broadcast
`speaking: true` to every peer in the map.  No message is ever sent for
silence.  The buffer has the fixed power-of-two length 128
(`fftSize = 256`), so the float comparison `sum / length > 20` is exact
and equals `20 * length < sum`. -/
def detectVoiceActivityFrame (s : VoiceChatState) (samples : List Nat) :
    VoiceChatState × List OutMsg :=
  if 20 * samples.length < samples.sum then
    (s, s.peerConnections.map
      (fun pl => { targetClientId := pl.fst, signal := Signal.speaking true }))
  else (s, [])

/-- One iteration of the `Object.keys(peerConnectionsRef.current).forEach`
loop in `initializeLocalStream` (voice-chat.tsx lines 313-331): remove
every sender whose track kind is audio, add the fresh capture tracks,
then create and send an offer on the same connection. -/
def streamPeerStep (stream : List Track) (offerSdp : PeerId → Nat)
    (gathered : PeerId → List Nat) (acc : VoiceChatState × List OutMsg)
    (p : PeerId) : VoiceChatState × List OutMsg :=
  match alookup p acc.fst.peerConnections with
  | none => acc
  | some link =>
    let senders' := link.connection.senders.filter (fun t => !t.isAudio) ++ audioTracks stream
    let pc1 := { link.connection with senders := senders' }
    let m := aset p { link with connection := pc1 } acc.fst.peerConnections
    let s' := { acc.fst with peerConnections := m }
    let r := createAndSendOffer s' p (offerSdp p) (gathered p)
    (r.fst, acc.snd ++ r.snd)

/-- One iteration of the `activeUsers.forEach` loop in
`initializeLocalStream` (voice-chat.tsx lines 334-341): for an active
user with no connection yet, create one and send it an offer. -/
def streamMissingUserStep (offerSdp : PeerId → Nat) (gathered : PeerId → List Nat)
    (acc : VoiceChatState × List OutMsg) (u : PeerId) : VoiceChatState × List OutMsg :=
  match alookup u acc.fst.peerConnections with
  | some _ => acc
  | none =>
    let s' := (createPeerConnection acc.fst u).fst
    let r := createAndSendOffer s' u (offerSdp u) (gathered u)
    (r.fst, acc.snd ++ r.snd)

/-- Embedding of the success path of `initializeLocalStream`
(voice-chat.tsx lines 261-346), entered when the user unmutes and
`getUserMedia` resolves with `stream`: store the capture stream, refresh
the senders of every existing peer connection and renegotiate each, then
create connections (and send offers) for active users that have none.
`offerSdp` and `gathered` are the per-peer oracles for `createOffer`
bodies and ICE-gathering results. -/
def initializeLocalStream (s : VoiceChatState) (stream : List Track)
    (offerSdp : PeerId → Nat) (gathered : PeerId → List Nat) :
    VoiceChatState × List OutMsg :=
  let s0 := { s with localStream := some stream }
  let r1 := (keys s0.peerConnections).foldl (streamPeerStep stream offerSdp gathered) (s0, [])
  if s0.activeUsers.isEmpty then r1
  else s0.activeUsers.foldl (streamMissingUserStep offerSdp gathered) r1

/-- The failure path of `initializeLocalStream` (voice-chat.tsx lines
347-356): microphone access failed, so the mute state is forced back on. -/
def micAccessError (s : VoiceChatState) : VoiceChatState :=
  { s with isMuted := true }

/-- The externally observable events one VoiceChat instance reacts to:
relay messages, presence broadcasts, the deferred-offer timer, ICE
gathering callbacks, animation frames of the voice-activity loop, and the
local mute/unmute effects.  `unmuteStream` carries the oracles for the
asynchronous negotiation steps it triggers. -/
inductive Event
  | clientSignal (source target : PeerId) (sig : Signal) (ansSdp : Nat) (gathered : List Nat)
  | userJoined (cid : PeerId)
  | userLeft (cid : PeerId)
  | offerTimer (cid : PeerId) (offerSdp : Nat) (gathered : List Nat)
  | iceGathered (cid : PeerId) (c : Option Nat)
  | vadFrame (samples : List Nat)
  | muteOn
  | unmuteStream (stream : List Track) (offerSdp : PeerId → Nat) (gathered : PeerId → List Nat)
  | micError

/-- Dispatch of one event against the component, following the
`client-signal` dispatcher (voice-chat.tsx lines 105-141, including the
`targetClientId` filter), the presence handlers, the `setTimeout` offer
callback (lines 160-166), the `onicecandidate` callback, the
voice-activity frame, and the `isMuted` effect. -/
def stepEvent (selfId : PeerId) (s : VoiceChatState) : Event → VoiceChatState × List OutMsg
  | Event.clientSignal source target sig ansSdp gathered =>
    if target = selfId then
      match sig with
      | Signal.desc d =>
        if d.dtype = DescType.offer then handleOffer s source d ansSdp gathered
        else if d.dtype = DescType.answer then handleAnswer s source d
        else (s, [])
      | Signal.candidate c => handleIceCandidate s source c
      | Signal.speaking b =>
        if b then
          let talking :=
            if source ∈ s.talkingUsers then s.talkingUsers else s.talkingUsers ++ [source]
          ({ s with talkingUsers := talking }, [])
        else
          let talking := s.talkingUsers.filter (fun q => decide (q ≠ source))
          ({ s with talkingUsers := talking }, [])
      | Signal.mute => (s, [])
    else (s, [])
  | Event.userJoined cid => (voiceUserJoined selfId s cid, [])
  | Event.userLeft cid => (voiceUserLeft selfId s cid, [])
  | Event.offerTimer cid offerSdp gathered =>
    match alookup cid s.peerConnections with
    | some _ => createAndSendOffer s cid offerSdp gathered
    | none => (s, [])
  | Event.iceGathered cid c => onIceCandidate s cid c
  | Event.vadFrame samples => detectVoiceActivityFrame s samples
  | Event.muteOn => onMuteTrue s
  | Event.unmuteStream stream offerSdp gathered =>
    initializeLocalStream { s with isMuted := false } stream offerSdp gathered
  | Event.micError => (micAccessError s, [])

/-- An event together with its wall-clock arrival time in milliseconds.
No handler in the client reads the clock, so `stepEvent` ignores the
timestamp; it exists so that temporal claims (TTL expiry, indicator
timeout) can be stated over traces. -/
structure TimedEvent where
  time : Nat
  ev : Event

/-- Run a list of timed events through one component instance,
accumulating the signaling messages it sends. -/
def runTrace (selfId : PeerId) (s : VoiceChatState) :
    List TimedEvent → VoiceChatState × List OutMsg
  | [] => (s, [])
  | te :: rest =>
    let r := stepEvent selfId s te.ev
    let r' := runTrace selfId r.fst rest
    (r'.fst, r.snd ++ r'.snd)

/-- Broadcasts the voice presence route can trigger on the session's
voice channel. -/
inductive VoiceBroadcast
  | userJoined (clientId : PeerId)
  | userLeft (clientId : PeerId)
deriving DecidableEq

/-- Result of one voice presence POST: an error response or a 200 with
the list of broadcasts the route triggered. -/
inductive PresenceResponse
  | badRequest (error : String)
  | ok (broadcasts : List VoiceBroadcast)
deriving DecidableEq

/-- JS falsiness of an optional string parameter (`!x` is true for a
missing field and for the empty string). -/
def falsyStr : Option String → Bool
  | none => true
  | some s => decide (s = "")

namespace VoicePresence

/-- Embedding of the voice presence route handler
(src/app/api/voice/presence/route.ts lines 4-49).  The route is
stateless: it stores nothing anywhere, so the function takes no store and
returns none.  A join triggers a `voice-user-joined` broadcast, a leave a
`voice-user-left` broadcast, and a heartbeat triggers nothing at all. -/
def POST (sessionId clientId action : Option String) : PresenceResponse :=
  if falsyStr sessionId || falsyStr clientId || falsyStr action then
    PresenceResponse.badRequest "Missing required parameters"
  else
    match action, clientId with
    | some a, some cid =>
      if a = "join" then PresenceResponse.ok [VoiceBroadcast.userJoined cid]
      else if a = "leave" then PresenceResponse.ok [VoiceBroadcast.userLeft cid]
      else if a = "heartbeat" then PresenceResponse.ok []
      else PresenceResponse.badRequest "Invalid action"
    | _, _ => PresenceResponse.badRequest "Missing required parameters"

end VoicePresence

/-- Derived form describing the effect of an unmute on one existing
PeerLink (used to state the renegotiation contract): the stale audio
senders are removed, the fresh capture tracks added, and a fresh offer
carrying the gathered candidates is pending as local description. -/
def streamTransform (st : List Track) (o : PeerId → Nat) (g : PeerId → List Nat)
    (p : PeerId) (link : PeerConnection) : PeerConnection :=
  let senders' := link.connection.senders.filter (fun t => !t.isAudio) ++ audioTracks st
  let d : Description := { dtype := DescType.offer, sdp := o p, cands := g p }
  let pc := { link.connection with senders := senders', pendingLocal := some d }
  { link with connection := pc }

/-- The single offer message sent to peer `p` during an unmute
renegotiation. -/
def offerMsgFor (o : PeerId → Nat) (g : PeerId → List Nat) (p : PeerId) : OutMsg :=
  { targetClientId := p,
    signal := Signal.desc { dtype := DescType.offer, sdp := o p, cands := g p } }

/-- Derived form of the responder pipeline `handleOffer` runs when a
local offer is outstanding: roll back, set the remote description to the
offer, set a local answer, attach the gathered candidates. -/
def glareResponderPC (pc : RTCPeerConnection) (offer : Description) (a : Nat)
    (g : List Nat) : RTCPeerConnection :=
  let pcRolled := setLocalDescription pc rollbackDesc
  let pcRemote := setRemoteDescription pcRolled offer
  let answer : Description := { dtype := DescType.answer, sdp := a, cands := [] }
  attachGathered (setLocalDescription pcRemote answer) g

/-- Derived form of the link `handleOffer` builds for a previously
unknown peer: a fresh connection that has completed the responder flow
(answer as current local, the offer as current remote), with the default
audio sink attached. -/
def respondedLink (s : VoiceChatState) (offer : Description) (a : Nat)
    (g : List Nat) : PeerConnection :=
  let pc : RTCPeerConnection :=
    { currentLocal := some { dtype := DescType.answer, sdp := a, cands := g },
      currentRemote := some offer, pendingLocal := none, pendingRemote := none,
      senders := currentLocalTracks s, remoteCandidates := [] }
  { connection := pc, audio := newAudioElement s.isAudioEnabled }

/-- Events that the code allows to remove `p` from the talking set of
instance `selfId`: an explicit `speaking: false` signal from `p` addressed
to this instance, or `p` leaving (which closes the link and deletes the
indicator). -/
def clearsTalking (selfId p : PeerId) : Event → Prop
  | Event.clientSignal source target (Signal.speaking b) _ _ =>
    b = false ∧ source = p ∧ target = selfId
  | Event.userLeft cid => cid = p
  | _ => False

/-- An event is a speaking signal originating from `p`. -/
def isSpeakingEventFrom (p : PeerId) : Event → Prop
  | Event.clientSignal source _ (Signal.speaking _) _ _ => source = p
  | _ => False

/-- Rendering of claim C1 as stated: if a participant `d` is present and
then, for more than the 60-second TTL, the instance receives no explicit
presence event about `d` (because `d` only stopped heartbeating and never
sent a leave), then `d` is removed from the active set and its PeerLink is
closed. -/
def heartbeatTTLRemoval : Prop :=
  ∀ (selfId : PeerId) (s : VoiceChatState) (d : PeerId) (evs : List TimedEvent)
    (endTime : Nat),
    d ∈ s.activeUsers →
    (∀ te ∈ evs, te.ev ≠ Event.userLeft d ∧ te.ev ≠ Event.userJoined d) →
    (∀ te ∈ evs, te.time ≤ endTime) →
    60000 < endTime →
    d ∉ (runTrace selfId s evs).fst.activeUsers ∧
      alookup d (runTrace selfId s evs).fst.peerConnections = none

/-- Rendering of claim C5 as stated: on local mute the audio senders are
removed from every open PeerLink, the capture stream is released, a mute
event is broadcast to every peer, and no link's negotiation state
changes. -/
def muteContractAsSpecified : Prop :=
  ∀ (s : VoiceChatState) (stream : List Track), s.localStream = some stream →
    (∀ (p : PeerId) (link' : PeerConnection),
        alookup p (onMuteTrue s).fst.peerConnections = some link' →
        link'.connection.senders.filter Track.isAudio = []) ∧
    (onMuteTrue s).fst.localStream = none ∧
    (onMuteTrue s).snd
      = s.peerConnections.map (fun pl => { targetClientId := pl.fst, signal := Signal.mute }) ∧
    (∀ (p : PeerId) (link link' : PeerConnection),
        alookup p s.peerConnections = some link →
        alookup p (onMuteTrue s).fst.peerConnections = some link' →
        link'.connection.signalingState = link.connection.signalingState)

/-- Rendering of claim C6 as stated: an offer is sent as one signaling
message batching the gathered candidates, and no separate per-candidate
signaling messages are ever sent. -/
def iceBatchingAsSpecified : Prop :=
  (∀ (s : VoiceChatState) (p : PeerId) (sdp : Nat) (g : List Nat) (link : PeerConnection),
      alookup p s.peerConnections = some link →
      (createAndSendOffer s p sdp g).snd
        = [{ targetClientId := p,
             signal := Signal.desc { dtype := DescType.offer, sdp := sdp, cands := g } }]) ∧
  (∀ (s : VoiceChatState) (p : PeerId) (c : Option Nat), (onIceCandidate s p c).snd = [])

/-- Rendering of claim C9 as stated: a participant marked talking is
cleared again whenever no further speaking event from it arrives within
about two seconds. -/
def talkingIndicatorTimeout : Prop :=
  ∀ (selfId : PeerId) (s : VoiceChatState) (p : PeerId) (evs : List TimedEvent)
    (endTime : Nat),
    p ∈ s.talkingUsers →
    (∀ te ∈ evs, ¬ isSpeakingEventFrom p te.ev) →
    (∀ te ∈ evs, te.time ≤ endTime) →
    2000 ≤ endTime →
    p ∉ (runTrace selfId s evs).fst.talkingUsers

/-! Concrete sample objects used to instantiate theorems and to refute
claims on explicit inputs. -/

/-- A freshly created connection: stable, no descriptions, no senders. -/
def pcIdle : RTCPeerConnection :=
  { currentLocal := none, currentRemote := none, pendingLocal := none, pendingRemote := none,
    senders := [], remoteCandidates := [] }

/-- A connection with an outstanding local offer. -/
def pcOffered : RTCPeerConnection :=
  { pcIdle with pendingLocal := some { dtype := DescType.offer, sdp := 1, cands := [] } }

/-- A sample audio sink. -/
def audioSample : AudioElement := newAudioElement false

/-- A link whose connection is idle. -/
def linkIdle : PeerConnection := { connection := pcIdle, audio := audioSample }

/-- A link with an outstanding local offer. -/
def linkOffered : PeerConnection := { connection := pcOffered, audio := audioSample }

/-- The sample microphone capture track. -/
def trackMic : Track := { id := 5, kind := TrackKind.audio }

/-- A link whose connection carries the microphone track as sender. -/
def linkWithSender : PeerConnection :=
  { connection := { pcIdle with senders := [trackMic] }, audio := audioSample }

/-- A state in which participant d is present with an idle PeerLink. -/
def stateD : VoiceChatState :=
  { isMuted := true, isAudioEnabled := false, activeUsers := ["d"], talkingUsers := [],
    localStream := none, stoppedTracks := [], peerConnections := [("d", linkIdle)] }

/-- A state in which participant p is currently marked talking. -/
def stateTalking : VoiceChatState := { stateD with talkingUsers := ["p"] }

/-- An unmuted state with a live capture stream whose track is attached
to peer b's link. -/
def stateMute : VoiceChatState :=
  { isMuted := false, isAudioEnabled := false, activeUsers := ["b"], talkingUsers := [],
    localStream := some [trackMic], stoppedTracks := [], peerConnections := [("b", linkWithSender)] }

/-- A state with an outstanding local offer towards peer b. -/
def stateOffered : VoiceChatState :=
  { isMuted := false, isAudioEnabled := false, activeUsers := ["b"], talkingUsers := [],
    localStream := none, stoppedTracks := [], peerConnections := [("b", linkOffered)] }

/-- A sample incoming answer description. -/
def answerB : Description := { dtype := DescType.answer, sdp := 7, cands := [3] }

/-- A sample incoming offer description. -/
def offerB : Description := { dtype := DescType.offer, sdp := 9, cands := [4] }

/-! Association-list lemmas. -/

theorem alookup_aset_self {β : Type _} (k : PeerId) (v : β) (l : List (PeerId × β)) :
    alookup k (aset k v l) = some v := by
  induction l with
  | nil => simp [aset, alookup]
  | cons hd tl ih =>
    obtain ⟨a, b⟩ := hd
    by_cases h : a = k
    · simp [aset, alookup, h]
    · simp [aset, alookup, h, ih]

theorem alookup_aset_ne {β : Type _} {q k : PeerId} (h : q ≠ k) (v : β)
    (l : List (PeerId × β)) : alookup q (aset k v l) = alookup q l := by
  have hkq : ¬ k = q := fun hh => h hh.symm
  induction l with
  | nil => simp [aset, alookup, hkq]
  | cons hd tl ih =>
    obtain ⟨a, b⟩ := hd
    by_cases hk : a = k
    · simp [aset, alookup, hk, hkq]
    · by_cases hq : a = q
      · simp [aset, alookup, hk, hq, h]
      · simp [aset, alookup, hk, hq, ih]

theorem alookup_aerase_ne {β : Type _} {q k : PeerId} (h : q ≠ k)
    (l : List (PeerId × β)) : alookup q (aerase k l) = alookup q l := by
  have hkq : ¬ k = q := fun hh => h hh.symm
  induction l with
  | nil => simp [aerase, alookup]
  | cons hd tl ih =>
    obtain ⟨a, b⟩ := hd
    by_cases hk : a = k
    · simp [aerase, alookup, hk, hkq]
    · by_cases hq : a = q
      · simp [aerase, alookup, hk, hq, h]
      · simp [aerase, alookup, hk, hq, ih]

theorem mem_keys_of_alookup {β : Type _} {k : PeerId} {v : β} {l : List (PeerId × β)}
    (h : alookup k l = some v) : k ∈ keys l := by
  induction l with
  | nil => simp [alookup] at h
  | cons hd tl ih =>
    obtain ⟨a, b⟩ := hd
    by_cases hk : a = k
    · simp [keys, hk]
    · rw [show alookup k ((a, b) :: tl) = alookup k tl from by simp [alookup, hk]] at h
      exact List.mem_cons_of_mem _ (ih h)

theorem alookup_eq_none_of_not_mem {β : Type _} {k : PeerId} {l : List (PeerId × β)}
    (h : k ∉ keys l) : alookup k l = none := by
  induction l with
  | nil => rfl
  | cons hd tl ih =>
    obtain ⟨a, b⟩ := hd
    have h1 : ¬ a = k := by
      intro hh
      exact h (by simp [keys, hh])
    have h2 : k ∉ keys tl := by
      intro hh
      refine h ?_
      simp [keys] at hh ⊢
      exact Or.inr hh
    simp [alookup, h1, ih h2]

theorem keys_aset_of_mem {β : Type _} {k : PeerId} (v : β) {l : List (PeerId × β)}
    (h : k ∈ keys l) : keys (aset k v l) = keys l := by
  induction l with
  | nil => simp [keys] at h
  | cons hd tl ih =>
    obtain ⟨a, b⟩ := hd
    by_cases hk : a = k
    · simp [aset, hk, keys]
    · have h' : k ∈ keys tl := by
        simp [keys, hk] at h
        rcases h with h | h
        · exact absurd h.symm hk
        · simp [keys]
          exact h
      simp [aset, hk, keys]
      exact ih h'

theorem keys_aset_of_not_mem {β : Type _} {k : PeerId} (v : β) {l : List (PeerId × β)}
    (h : k ∉ keys l) : keys (aset k v l) = keys l ++ [k] := by
  induction l with
  | nil => simp [aset, keys]
  | cons hd tl ih =>
    obtain ⟨a, b⟩ := hd
    have h1 : ¬ a = k := by
      intro hh
      exact h (by simp [keys, hh])
    have h2 : k ∉ keys tl := by
      intro hh
      refine h ?_
      simp [keys] at hh ⊢
      exact Or.inr hh
    simp [aset, h1, keys]
    exact ih h2

theorem keysNodup_aset {β : Type _} (k : PeerId) (v : β) {l : List (PeerId × β)}
    (h : keysNodup l) : keysNodup (aset k v l) := by
  by_cases hm : k ∈ keys l
  · unfold keysNodup
    rw [keys_aset_of_mem v hm]
    exact h
  · unfold keysNodup
    rw [keys_aset_of_not_mem v hm]
    simp [List.nodup_append]
    exact ⟨h, hm⟩

theorem keys_aerase_sublist {β : Type _} (k : PeerId) (l : List (PeerId × β)) :
    List.Sublist (keys (aerase k l)) (keys l) := by
  induction l with
  | nil => simp [aerase, keys]
  | cons hd tl ih =>
    obtain ⟨a, b⟩ := hd
    by_cases hk : a = k
    · rw [show aerase k ((a, b) :: tl) = tl from by simp [aerase, hk]]
      exact List.sublist_cons_self _ _
    · rw [show aerase k ((a, b) :: tl) = (a, b) :: aerase k tl from by simp [aerase, hk]]
      exact List.Sublist.cons₂ _ ih

theorem keysNodup_aerase {β : Type _} (k : PeerId) {l : List (PeerId × β)}
    (h : keysNodup l) : keysNodup (aerase k l) :=
  List.Nodup.sublist (keys_aerase_sublist k l) h

theorem alookup_isSome_aset {β : Type _} {q : PeerId} (k : PeerId) (v : β)
    {l : List (PeerId × β)} (h : (alookup q l).isSome) :
    (alookup q (aset k v l)).isSome := by
  by_cases hq : q = k
  · subst hq
    simp [alookup_aset_self]
  · rw [alookup_aset_ne hq]
    exact h

/-! Preservation lemmas about the component operations. -/

theorem createPeerConnection_activeUsers (s : VoiceChatState) (p : PeerId) :
    (createPeerConnection s p).fst.activeUsers = s.activeUsers := by
  cases h : alookup p s.peerConnections <;> simp [createPeerConnection, h]

theorem createPeerConnection_talkingUsers (s : VoiceChatState) (p : PeerId) :
    (createPeerConnection s p).fst.talkingUsers = s.talkingUsers := by
  cases h : alookup p s.peerConnections <;> simp [createPeerConnection, h]

theorem createPeerConnection_keysNodup (s : VoiceChatState) (p : PeerId)
    (h : keysNodup s.peerConnections) :
    keysNodup (createPeerConnection s p).fst.peerConnections := by
  cases hl : alookup p s.peerConnections <;> simp [createPeerConnection, hl]
  · exact keysNodup_aset _ _ h
  · exact h

theorem createPeerConnection_lookup_isSome (s : VoiceChatState) (p q : PeerId)
    (h : (alookup q s.peerConnections).isSome) :
    (alookup q (createPeerConnection s p).fst.peerConnections).isSome := by
  cases hl : alookup p s.peerConnections <;> simp [createPeerConnection, hl]
  · exact alookup_isSome_aset _ _ h
  · exact h

theorem createAndSendOffer_activeUsers (s : VoiceChatState) (p : PeerId)
    (o : Nat) (g : List Nat) :
    (createAndSendOffer s p o g).fst.activeUsers = s.activeUsers := by
  cases h : alookup p s.peerConnections <;> simp [createAndSendOffer, h]

theorem createAndSendOffer_talkingUsers (s : VoiceChatState) (p : PeerId)
    (o : Nat) (g : List Nat) :
    (createAndSendOffer s p o g).fst.talkingUsers = s.talkingUsers := by
  cases h : alookup p s.peerConnections <;> simp [createAndSendOffer, h]

theorem createAndSendOffer_keysNodup (s : VoiceChatState) (p : PeerId)
    (o : Nat) (g : List Nat) (h : keysNodup s.peerConnections) :
    keysNodup (createAndSendOffer s p o g).fst.peerConnections := by
  cases hl : alookup p s.peerConnections <;> simp [createAndSendOffer, hl]
  · exact h
  · exact keysNodup_aset _ _ h

theorem createAndSendOffer_lookup_isSome (s : VoiceChatState) (p q : PeerId)
    (o : Nat) (g : List Nat) (h : (alookup q s.peerConnections).isSome) :
    (alookup q (createAndSendOffer s p o g).fst.peerConnections).isSome := by
  cases hl : alookup p s.peerConnections <;> simp [createAndSendOffer, hl]
  · exact h
  · exact alookup_isSome_aset _ _ h

theorem createAndSendOffer_lookup_ne (s : VoiceChatState) {p q : PeerId}
    (hq : q ≠ p) (o : Nat) (g : List Nat) :
    alookup q (createAndSendOffer s p o g).fst.peerConnections
      = alookup q s.peerConnections := by
  cases hl : alookup p s.peerConnections <;> simp [createAndSendOffer, hl]
  rw [alookup_aset_ne hq]

theorem handleOffer_activeUsers (s : VoiceChatState) (p : PeerId) (d : Description)
    (a : Nat) (g : List Nat) :
    (handleOffer s p d a g).fst.activeUsers = s.activeUsers := by
  simp [handleOffer, createPeerConnection_activeUsers]

theorem handleOffer_talkingUsers (s : VoiceChatState) (p : PeerId) (d : Description)
    (a : Nat) (g : List Nat) :
    (handleOffer s p d a g).fst.talkingUsers = s.talkingUsers := by
  simp [handleOffer, createPeerConnection_talkingUsers]

theorem handleOffer_keysNodup (s : VoiceChatState) (p : PeerId) (d : Description)
    (a : Nat) (g : List Nat) (h : keysNodup s.peerConnections) :
    keysNodup (handleOffer s p d a g).fst.peerConnections := by
  simp only [handleOffer]
  exact keysNodup_aset _ _ (createPeerConnection_keysNodup s p h)

theorem handleOffer_lookup_isSome (s : VoiceChatState) (p q : PeerId) (d : Description)
    (a : Nat) (g : List Nat) (h : (alookup q s.peerConnections).isSome) :
    (alookup q (handleOffer s p d a g).fst.peerConnections).isSome := by
  simp only [handleOffer]
  exact alookup_isSome_aset _ _ (createPeerConnection_lookup_isSome s p q h)

theorem handleAnswer_activeUsers (s : VoiceChatState) (p : PeerId) (d : Description) :
    (handleAnswer s p d).fst.activeUsers = s.activeUsers := by
  cases h : alookup p s.peerConnections
  · simp [handleAnswer, h]
  · simp [handleAnswer, h]
    split <;> simp

theorem handleAnswer_talkingUsers (s : VoiceChatState) (p : PeerId) (d : Description) :
    (handleAnswer s p d).fst.talkingUsers = s.talkingUsers := by
  cases h : alookup p s.peerConnections
  · simp [handleAnswer, h]
  · simp [handleAnswer, h]
    split <;> simp

theorem handleAnswer_keysNodup (s : VoiceChatState) (p : PeerId) (d : Description)
    (h : keysNodup s.peerConnections) :
    keysNodup (handleAnswer s p d).fst.peerConnections := by
  cases hl : alookup p s.peerConnections
  · simpa [handleAnswer, hl] using h
  · simp [handleAnswer, hl]
    split
    · simp
      exact keysNodup_aset _ _ h
    · simpa using h

theorem handleAnswer_lookup_isSome (s : VoiceChatState) (p q : PeerId) (d : Description)
    (h : (alookup q s.peerConnections).isSome) :
    (alookup q (handleAnswer s p d).fst.peerConnections).isSome := by
  cases hl : alookup p s.peerConnections
  · simpa [handleAnswer, hl] using h
  · simp [handleAnswer, hl]
    split
    · simp
      exact alookup_isSome_aset _ _ h
    · simpa using h

theorem handleIceCandidate_activeUsers (s : VoiceChatState) (p : PeerId) (c : Nat) :
    (handleIceCandidate s p c).fst.activeUsers = s.activeUsers := by
  cases h : alookup p s.peerConnections
  · simp [handleIceCandidate, h]
  · simp [handleIceCandidate, h]
    split <;> simp

theorem handleIceCandidate_talkingUsers (s : VoiceChatState) (p : PeerId) (c : Nat) :
    (handleIceCandidate s p c).fst.talkingUsers = s.talkingUsers := by
  cases h : alookup p s.peerConnections
  · simp [handleIceCandidate, h]
  · simp [handleIceCandidate, h]
    split <;> simp

theorem handleIceCandidate_keysNodup (s : VoiceChatState) (p : PeerId) (c : Nat)
    (h : keysNodup s.peerConnections) :
    keysNodup (handleIceCandidate s p c).fst.peerConnections := by
  cases hl : alookup p s.peerConnections
  · simpa [handleIceCandidate, hl] using h
  · simp [handleIceCandidate, hl]
    split
    · simp
      exact keysNodup_aset _ _ h
    · simpa using h

theorem handleIceCandidate_lookup_isSome (s : VoiceChatState) (p q : PeerId) (c : Nat)
    (h : (alookup q s.peerConnections).isSome) :
    (alookup q (handleIceCandidate s p c).fst.peerConnections).isSome := by
  cases hl : alookup p s.peerConnections
  · simpa [handleIceCandidate, hl] using h
  · simp [handleIceCandidate, hl]
    split
    · simp
      exact alookup_isSome_aset _ _ h
    · simpa using h

theorem onMuteTrue_peerConnections (s : VoiceChatState) :
    (onMuteTrue s).fst.peerConnections = s.peerConnections := by
  cases h : s.localStream <;> simp [onMuteTrue, h]

theorem onMuteTrue_activeUsers (s : VoiceChatState) :
    (onMuteTrue s).fst.activeUsers = s.activeUsers := by
  cases h : s.localStream <;> simp [onMuteTrue, h]

theorem onMuteTrue_talkingUsers (s : VoiceChatState) :
    (onMuteTrue s).fst.talkingUsers = s.talkingUsers := by
  cases h : s.localStream <;> simp [onMuteTrue, h]

theorem onIceCandidate_fst (s : VoiceChatState) (p : PeerId) (c : Option Nat) :
    (onIceCandidate s p c).fst = s := by
  cases c <;> simp [onIceCandidate]

theorem detectVoiceActivityFrame_fst (s : VoiceChatState) (samples : List Nat) :
    (detectVoiceActivityFrame s samples).fst = s := by
  by_cases h : 20 * samples.length < samples.sum <;> simp [detectVoiceActivityFrame, h]

/-- Fold preservation: a predicate preserved by every step applied to a
list element is preserved by the whole fold. -/
theorem foldl_preserve_of_mem {α β : Type _} {f : β → α → β} {P : β → Prop} :
    ∀ (l : List α), (∀ b a, a ∈ l → P b → P (f b a)) →
      ∀ b : β, P b → P (l.foldl f b)
  | [], _, _, hb => hb
  | x :: xs, h, b, hb =>
    foldl_preserve_of_mem xs
      (fun b' a ha hb' => h b' a (List.mem_cons_of_mem _ ha) hb')
      (f b x) (h b x (List.mem_cons_self _ _) hb)

theorem createPeerConnection_lookup_ne (s : VoiceChatState) {p q : PeerId} (hq : q ≠ p) :
    alookup q (createPeerConnection s p).fst.peerConnections
      = alookup q s.peerConnections := by
  cases hl : alookup p s.peerConnections <;> simp [createPeerConnection, hl]
  rw [alookup_aset_ne hq]

theorem closePeerConnection_activeUsers (s : VoiceChatState) (p : PeerId) :
    (closePeerConnection s p).activeUsers = s.activeUsers := by
  cases h : alookup p s.peerConnections <;> simp [closePeerConnection, h]

theorem closePeerConnection_keysNodup (s : VoiceChatState) (p : PeerId)
    (h : keysNodup s.peerConnections) :
    keysNodup (closePeerConnection s p).peerConnections := by
  cases hl : alookup p s.peerConnections <;> simp [closePeerConnection, hl]
  · exact h
  · exact keysNodup_aerase _ h

theorem closePeerConnection_lookup_ne (s : VoiceChatState) {p q : PeerId} (hq : q ≠ p) :
    alookup q (closePeerConnection s p).peerConnections = alookup q s.peerConnections := by
  cases hl : alookup p s.peerConnections <;> simp [closePeerConnection, hl]
  rw [alookup_aerase_ne hq]

theorem closePeerConnection_talking_ne (s : VoiceChatState) {p q : PeerId} (hq : q ≠ p)
    (h : q ∈ s.talkingUsers) : q ∈ (closePeerConnection s p).talkingUsers := by
  cases hl : alookup p s.peerConnections <;> simp [closePeerConnection, hl]
  · exact h
  · exact ⟨h, hq⟩

theorem streamPeerStep_activeUsers (st : List Track) (o : PeerId → Nat)
    (g : PeerId → List Nat) (acc : VoiceChatState × List OutMsg) (p : PeerId) :
    (streamPeerStep st o g acc p).fst.activeUsers = acc.fst.activeUsers := by
  cases h : alookup p acc.fst.peerConnections <;>
    simp [streamPeerStep, h, createAndSendOffer_activeUsers]

theorem streamPeerStep_talkingUsers (st : List Track) (o : PeerId → Nat)
    (g : PeerId → List Nat) (acc : VoiceChatState × List OutMsg) (p : PeerId) :
    (streamPeerStep st o g acc p).fst.talkingUsers = acc.fst.talkingUsers := by
  cases h : alookup p acc.fst.peerConnections <;>
    simp [streamPeerStep, h, createAndSendOffer_talkingUsers]

theorem streamPeerStep_keysNodup (st : List Track) (o : PeerId → Nat)
    (g : PeerId → List Nat) (acc : VoiceChatState × List OutMsg) (p : PeerId)
    (h : keysNodup acc.fst.peerConnections) :
    keysNodup (streamPeerStep st o g acc p).fst.peerConnections := by
  cases hl : alookup p acc.fst.peerConnections <;> simp [streamPeerStep, hl]
  · exact h
  · exact createAndSendOffer_keysNodup _ _ _ _ (keysNodup_aset _ _ h)

theorem streamPeerStep_lookup_isSome (st : List Track) (o : PeerId → Nat)
    (g : PeerId → List Nat) (acc : VoiceChatState × List OutMsg) (p q : PeerId)
    (h : (alookup q acc.fst.peerConnections).isSome) :
    (alookup q (streamPeerStep st o g acc p).fst.peerConnections).isSome := by
  cases hl : alookup p acc.fst.peerConnections <;> simp [streamPeerStep, hl]
  · exact h
  · exact createAndSendOffer_lookup_isSome _ _ _ _ _ (alookup_isSome_aset _ _ h)

theorem streamPeerStep_lookup_ne (st : List Track) (o : PeerId → Nat)
    (g : PeerId → List Nat) (acc : VoiceChatState × List OutMsg) {p q : PeerId}
    (hq : q ≠ p) :
    alookup q (streamPeerStep st o g acc p).fst.peerConnections
      = alookup q acc.fst.peerConnections := by
  cases hl : alookup p acc.fst.peerConnections <;> simp [streamPeerStep, hl]
  rw [createAndSendOffer_lookup_ne _ hq]
  simp
  rw [alookup_aset_ne hq]

theorem streamPeerStep_snd_mono (st : List Track) (o : PeerId → Nat)
    (g : PeerId → List Nat) (acc : VoiceChatState × List OutMsg) (p : PeerId)
    {m : OutMsg} (h : m ∈ acc.snd) : m ∈ (streamPeerStep st o g acc p).snd := by
  cases hl : alookup p acc.fst.peerConnections <;> simp [streamPeerStep, hl]
  · exact h
  · exact Or.inl h

theorem streamMissingUserStep_activeUsers (o : PeerId → Nat) (g : PeerId → List Nat)
    (acc : VoiceChatState × List OutMsg) (u : PeerId) :
    (streamMissingUserStep o g acc u).fst.activeUsers = acc.fst.activeUsers := by
  cases h : alookup u acc.fst.peerConnections <;> simp [streamMissingUserStep, h]
  rw [createAndSendOffer_activeUsers, createPeerConnection_activeUsers]

theorem streamMissingUserStep_talkingUsers (o : PeerId → Nat) (g : PeerId → List Nat)
    (acc : VoiceChatState × List OutMsg) (u : PeerId) :
    (streamMissingUserStep o g acc u).fst.talkingUsers = acc.fst.talkingUsers := by
  cases h : alookup u acc.fst.peerConnections <;> simp [streamMissingUserStep, h]
  rw [createAndSendOffer_talkingUsers, createPeerConnection_talkingUsers]

theorem streamMissingUserStep_keysNodup (o : PeerId → Nat) (g : PeerId → List Nat)
    (acc : VoiceChatState × List OutMsg) (u : PeerId)
    (h : keysNodup acc.fst.peerConnections) :
    keysNodup (streamMissingUserStep o g acc u).fst.peerConnections := by
  cases hl : alookup u acc.fst.peerConnections <;> simp [streamMissingUserStep, hl]
  · exact createAndSendOffer_keysNodup _ _ _ _ (createPeerConnection_keysNodup _ _ h)
  · exact h

theorem streamMissingUserStep_lookup_eq (o : PeerId → Nat) (g : PeerId → List Nat)
    (acc : VoiceChatState × List OutMsg) (u : PeerId) {q : PeerId} {L : PeerConnection}
    (h : alookup q acc.fst.peerConnections = some L) :
    alookup q (streamMissingUserStep o g acc u).fst.peerConnections = some L := by
  by_cases hu : u = q
  · subst hu
    simp [streamMissingUserStep, h]
  · have hq : q ≠ u := fun hh => hu hh.symm
    cases hl : alookup u acc.fst.peerConnections <;> simp [streamMissingUserStep, hl]
    · rw [createAndSendOffer_lookup_ne _ hq, createPeerConnection_lookup_ne _ hq]
      exact h
    · exact h

theorem streamMissingUserStep_lookup_isSome (o : PeerId → Nat) (g : PeerId → List Nat)
    (acc : VoiceChatState × List OutMsg) (u : PeerId) {q : PeerId}
    (h : (alookup q acc.fst.peerConnections).isSome) :
    (alookup q (streamMissingUserStep o g acc u).fst.peerConnections).isSome := by
  obtain ⟨L, hL⟩ := Option.isSome_iff_exists.mp h
  rw [streamMissingUserStep_lookup_eq o g acc u hL]
  rfl

theorem streamMissingUserStep_snd_mono (o : PeerId → Nat) (g : PeerId → List Nat)
    (acc : VoiceChatState × List OutMsg) (u : PeerId) {m : OutMsg}
    (h : m ∈ acc.snd) : m ∈ (streamMissingUserStep o g acc u).snd := by
  cases hl : alookup u acc.fst.peerConnections <;> simp [streamMissingUserStep, hl]
  · exact Or.inl h
  · exact h

theorem initializeLocalStream_def (s : VoiceChatState) (st : List Track)
    (o : PeerId → Nat) (g : PeerId → List Nat) :
    initializeLocalStream s st o g =
      if ({ s with localStream := some st } : VoiceChatState).activeUsers.isEmpty then
        (keys ({ s with localStream := some st } : VoiceChatState).peerConnections).foldl
          (streamPeerStep st o g) ({ s with localStream := some st }, [])
      else
        ({ s with localStream := some st } : VoiceChatState).activeUsers.foldl
          (streamMissingUserStep o g)
          ((keys ({ s with localStream := some st } : VoiceChatState).peerConnections).foldl
            (streamPeerStep st o g) ({ s with localStream := some st }, [])) := rfl

theorem initializeLocalStream_activeUsers (s : VoiceChatState) (st : List Track)
    (o : PeerId → Nat) (g : PeerId → List Nat) :
    (initializeLocalStream s st o g).fst.activeUsers = s.activeUsers := by
  rw [initializeLocalStream_def]
  have h1 :
      ((keys ({ s with localStream := some st } : VoiceChatState).peerConnections).foldl
        (streamPeerStep st o g) ({ s with localStream := some st }, [])).fst.activeUsers
        = s.activeUsers :=
    foldl_preserve_of_mem
      (P := fun acc : VoiceChatState × List OutMsg => acc.fst.activeUsers = s.activeUsers) _
      (fun b a _ hb => by simpa only [streamPeerStep_activeUsers] using hb) _ rfl
  split
  · exact h1
  · exact foldl_preserve_of_mem
      (P := fun acc : VoiceChatState × List OutMsg => acc.fst.activeUsers = s.activeUsers) _
      (fun b a _ hb => by simpa only [streamMissingUserStep_activeUsers] using hb) _ h1

theorem initializeLocalStream_talkingUsers (s : VoiceChatState) (st : List Track)
    (o : PeerId → Nat) (g : PeerId → List Nat) :
    (initializeLocalStream s st o g).fst.talkingUsers = s.talkingUsers := by
  rw [initializeLocalStream_def]
  have h1 :
      ((keys ({ s with localStream := some st } : VoiceChatState).peerConnections).foldl
        (streamPeerStep st o g) ({ s with localStream := some st }, [])).fst.talkingUsers
        = s.talkingUsers :=
    foldl_preserve_of_mem
      (P := fun acc : VoiceChatState × List OutMsg => acc.fst.talkingUsers = s.talkingUsers) _
      (fun b a _ hb => by simpa only [streamPeerStep_talkingUsers] using hb) _ rfl
  split
  · exact h1
  · exact foldl_preserve_of_mem
      (P := fun acc : VoiceChatState × List OutMsg => acc.fst.talkingUsers = s.talkingUsers) _
      (fun b a _ hb => by simpa only [streamMissingUserStep_talkingUsers] using hb) _ h1

theorem initializeLocalStream_keysNodup (s : VoiceChatState) (st : List Track)
    (o : PeerId → Nat) (g : PeerId → List Nat) (h : keysNodup s.peerConnections) :
    keysNodup (initializeLocalStream s st o g).fst.peerConnections := by
  rw [initializeLocalStream_def]
  have h1 :
      keysNodup ((keys ({ s with localStream := some st } : VoiceChatState).peerConnections).foldl
        (streamPeerStep st o g) ({ s with localStream := some st }, [])).fst.peerConnections :=
    foldl_preserve_of_mem
      (P := fun acc : VoiceChatState × List OutMsg => keysNodup acc.fst.peerConnections) _
      (fun b a _ hb => streamPeerStep_keysNodup st o g b a hb) _ h
  split
  · exact h1
  · exact foldl_preserve_of_mem
      (P := fun acc : VoiceChatState × List OutMsg => keysNodup acc.fst.peerConnections) _
      (fun b a _ hb => streamMissingUserStep_keysNodup o g b a hb) _ h1

theorem initializeLocalStream_lookup_isSome (s : VoiceChatState) (st : List Track)
    (o : PeerId → Nat) (g : PeerId → List Nat) (q : PeerId)
    (h : (alookup q s.peerConnections).isSome) :
    (alookup q (initializeLocalStream s st o g).fst.peerConnections).isSome := by
  rw [initializeLocalStream_def]
  have h1 :
      (alookup q ((keys ({ s with localStream := some st } : VoiceChatState).peerConnections).foldl
        (streamPeerStep st o g) ({ s with localStream := some st }, [])).fst.peerConnections).isSome :=
    foldl_preserve_of_mem
      (P := fun acc : VoiceChatState × List OutMsg => (alookup q acc.fst.peerConnections).isSome) _
      (fun b a _ hb => streamPeerStep_lookup_isSome st o g b a q hb) _ h
  split
  · exact h1
  · exact foldl_preserve_of_mem
      (P := fun acc : VoiceChatState × List OutMsg => (alookup q acc.fst.peerConnections).isSome) _
      (fun b a _ hb => streamMissingUserStep_lookup_isSome o g b a hb) _ h1

theorem voiceUserJoined_activeUsers_mem (selfId : PeerId) (s : VoiceChatState)
    (cid : PeerId) {d : PeerId} (h : d ∈ s.activeUsers) :
    d ∈ (voiceUserJoined selfId s cid).activeUsers := by
  by_cases hc : cid = selfId
  · simpa [voiceUserJoined, hc] using h
  · unfold voiceUserJoined
    simp [hc]
    split
    · split <;> simp_all
    · rw [createPeerConnection_activeUsers]
      split <;> simp_all

theorem voiceUserJoined_talkingUsers (selfId : PeerId) (s : VoiceChatState)
    (cid : PeerId) :
    (voiceUserJoined selfId s cid).talkingUsers = s.talkingUsers := by
  by_cases hc : cid = selfId
  · simp [voiceUserJoined, hc]
  · unfold voiceUserJoined
    simp [hc]
    split
    · simp
    · rw [createPeerConnection_talkingUsers]

theorem voiceUserJoined_keysNodup (selfId : PeerId) (s : VoiceChatState)
    (cid : PeerId) (h : keysNodup s.peerConnections) :
    keysNodup (voiceUserJoined selfId s cid).peerConnections := by
  by_cases hc : cid = selfId
  · simpa [voiceUserJoined, hc] using h
  · unfold voiceUserJoined
    simp [hc]
    split
    · simpa using h
    · exact createPeerConnection_keysNodup _ _ (by simpa using h)

theorem voiceUserJoined_lookup_isSome (selfId : PeerId) (s : VoiceChatState)
    (cid q : PeerId) (h : (alookup q s.peerConnections).isSome) :
    (alookup q (voiceUserJoined selfId s cid).peerConnections).isSome := by
  by_cases hc : cid = selfId
  · simpa [voiceUserJoined, hc] using h
  · unfold voiceUserJoined
    simp [hc]
    split
    · simpa using h
    · exact createPeerConnection_lookup_isSome _ _ _ (by simpa using h)

theorem voiceUserLeft_keysNodup (selfId : PeerId) (s : VoiceChatState) (cid : PeerId)
    (h : keysNodup s.peerConnections) :
    keysNodup (voiceUserLeft selfId s cid).peerConnections := by
  by_cases hc : cid = selfId
  · simpa [voiceUserLeft, hc] using h
  · unfold voiceUserLeft
    simp [hc]
    exact closePeerConnection_keysNodup _ _ (by simpa using h)

/-! Event-level invariants of the component. -/

/-- Every event handler keeps the peer-connection map free of duplicate
keys. -/
theorem stepEvent_keysNodup (selfId : PeerId) (s : VoiceChatState) (e : Event)
    (h : keysNodup s.peerConnections) :
    keysNodup (stepEvent selfId s e).fst.peerConnections := by
  cases e with
  | clientSignal source target sig a g =>
    by_cases ht : target = selfId
    · cases sig with
      | desc d =>
        by_cases h1 : d.dtype = DescType.offer
        · simpa [stepEvent, ht, h1] using handleOffer_keysNodup s source d a g h
        · by_cases h2 : d.dtype = DescType.answer
          · simpa [stepEvent, ht, h1, h2] using handleAnswer_keysNodup s source d h
          · simpa [stepEvent, ht, h1, h2] using h
      | candidate c => simpa [stepEvent, ht] using handleIceCandidate_keysNodup s source c h
      | speaking b => cases b <;> simpa [stepEvent, ht] using h
      | mute => simpa [stepEvent, ht] using h
    · simpa [stepEvent, ht] using h
  | userJoined cid => simpa [stepEvent] using voiceUserJoined_keysNodup selfId s cid h
  | userLeft cid => simpa [stepEvent] using voiceUserLeft_keysNodup selfId s cid h
  | offerTimer cid o' g' =>
    cases hl : alookup cid s.peerConnections with
    | none => simpa [stepEvent, hl] using h
    | some link => simpa [stepEvent, hl] using createAndSendOffer_keysNodup s cid o' g' h
  | iceGathered cid c => simpa [stepEvent, onIceCandidate_fst] using h
  | vadFrame samples => simpa [stepEvent, detectVoiceActivityFrame_fst] using h
  | muteOn => simpa [stepEvent, onMuteTrue_peerConnections] using h
  | unmuteStream stream o' g' =>
    simpa [stepEvent] using
      initializeLocalStream_keysNodup { s with isMuted := false } stream o' g' (by simpa using h)
  | micError => simpa [stepEvent, micAccessError] using h

/-- No event except an explicit `voice-user-left` for `d` removes `d`
from the active set. -/
theorem stepEvent_activeUsers_persist (selfId : PeerId) (s : VoiceChatState) (e : Event)
    {d : PeerId} (hd : d ∈ s.activeUsers) (he : e ≠ Event.userLeft d) :
    d ∈ (stepEvent selfId s e).fst.activeUsers := by
  cases e with
  | clientSignal source target sig a g =>
    by_cases ht : target = selfId
    · cases sig with
      | desc dd =>
        by_cases h1 : dd.dtype = DescType.offer
        · simpa [stepEvent, ht, h1, handleOffer_activeUsers] using hd
        · by_cases h2 : dd.dtype = DescType.answer
          · simpa [stepEvent, ht, h1, h2, handleAnswer_activeUsers] using hd
          · simpa [stepEvent, ht, h1, h2] using hd
      | candidate c => simpa [stepEvent, ht, handleIceCandidate_activeUsers] using hd
      | speaking b => cases b <;> simpa [stepEvent, ht] using hd
      | mute => simpa [stepEvent, ht] using hd
    · simpa [stepEvent, ht] using hd
  | userJoined cid => simpa [stepEvent] using voiceUserJoined_activeUsers_mem selfId s cid hd
  | userLeft cid =>
    have hcd : cid ≠ d := fun hh => he (by rw [hh])
    by_cases hc : cid = selfId
    · simpa [stepEvent, voiceUserLeft, hc] using hd
    · simp [stepEvent, voiceUserLeft, hc, closePeerConnection_activeUsers]
      exact ⟨hd, fun hh => hcd hh.symm⟩
  | offerTimer cid o' g' =>
    cases hl : alookup cid s.peerConnections with
    | none => simpa [stepEvent, hl] using hd
    | some link => simpa [stepEvent, hl, createAndSendOffer_activeUsers] using hd
  | iceGathered cid c => simpa [stepEvent, onIceCandidate_fst] using hd
  | vadFrame samples => simpa [stepEvent, detectVoiceActivityFrame_fst] using hd
  | muteOn => simpa [stepEvent, onMuteTrue_activeUsers] using hd
  | unmuteStream stream o' g' =>
    simpa [stepEvent, initializeLocalStream_activeUsers] using hd
  | micError => simpa [stepEvent, micAccessError] using hd

/-- No event except an explicit `voice-user-left` for `d` removes `d`'s
PeerLink from the map. -/
theorem stepEvent_lookup_persist (selfId : PeerId) (s : VoiceChatState) (e : Event)
    {d : PeerId} (hd : (alookup d s.peerConnections).isSome)
    (he : e ≠ Event.userLeft d) :
    (alookup d (stepEvent selfId s e).fst.peerConnections).isSome := by
  cases e with
  | clientSignal source target sig a g =>
    by_cases ht : target = selfId
    · cases sig with
      | desc dd =>
        by_cases h1 : dd.dtype = DescType.offer
        · simpa [stepEvent, ht, h1] using handleOffer_lookup_isSome s source d dd a g hd
        · by_cases h2 : dd.dtype = DescType.answer
          · simpa [stepEvent, ht, h1, h2] using handleAnswer_lookup_isSome s source d dd hd
          · simpa [stepEvent, ht, h1, h2] using hd
      | candidate c =>
        simpa [stepEvent, ht] using handleIceCandidate_lookup_isSome s source d c hd
      | speaking b => cases b <;> simpa [stepEvent, ht] using hd
      | mute => simpa [stepEvent, ht] using hd
    · simpa [stepEvent, ht] using hd
  | userJoined cid => simpa [stepEvent] using voiceUserJoined_lookup_isSome selfId s cid d hd
  | userLeft cid =>
    have hcd : d ≠ cid := fun hh => he (by rw [hh])
    by_cases hc : cid = selfId
    · simpa [stepEvent, voiceUserLeft, hc] using hd
    · unfold stepEvent voiceUserLeft
      simp [hc]
      rw [closePeerConnection_lookup_ne _ hcd]
      simpa using hd
  | offerTimer cid o' g' =>
    cases hl : alookup cid s.peerConnections with
    | none => simpa [stepEvent, hl] using hd
    | some link =>
      simpa [stepEvent, hl] using createAndSendOffer_lookup_isSome s cid d o' g' hd
  | iceGathered cid c => simpa [stepEvent, onIceCandidate_fst] using hd
  | vadFrame samples => simpa [stepEvent, detectVoiceActivityFrame_fst] using hd
  | muteOn => simpa [stepEvent, onMuteTrue_peerConnections] using hd
  | unmuteStream stream o' g' =>
    simpa [stepEvent] using
      initializeLocalStream_lookup_isSome { s with isMuted := false } stream o' g' d
        (by simpa using hd)
  | micError => simpa [stepEvent, micAccessError] using hd

/-- The talking indicator of `p` survives every event that is neither an
explicit `speaking: false` signal from `p` nor `p`'s departure. -/
theorem stepEvent_talking_persist (selfId : PeerId) (s : VoiceChatState) (e : Event)
    {p : PeerId} (hp : p ∈ s.talkingUsers) (he : ¬ clearsTalking selfId p e) :
    p ∈ (stepEvent selfId s e).fst.talkingUsers := by
  cases e with
  | clientSignal source target sig a g =>
    by_cases ht : target = selfId
    · cases sig with
      | desc dd =>
        by_cases h1 : dd.dtype = DescType.offer
        · simpa [stepEvent, ht, h1, handleOffer_talkingUsers] using hp
        · by_cases h2 : dd.dtype = DescType.answer
          · simpa [stepEvent, ht, h1, h2, handleAnswer_talkingUsers] using hp
          · simpa [stepEvent, ht, h1, h2] using hp
      | candidate c => simpa [stepEvent, ht, handleIceCandidate_talkingUsers] using hp
      | speaking b =>
        cases b with
        | true =>
          simp [stepEvent, ht]
          split
          · simpa using hp
          · simpa using Or.inl hp
        | false =>
          have hsp : ¬ source = p := fun hh => he (by simp [clearsTalking, hh, ht])
          simp [stepEvent, ht]
          exact ⟨hp, fun hh => hsp hh.symm⟩
      | mute => simpa [stepEvent, ht] using hp
    · simpa [stepEvent, ht] using hp
  | userJoined cid => simpa [stepEvent, voiceUserJoined_talkingUsers] using hp
  | userLeft cid =>
    have hcp : ¬ cid = p := fun hh => he (by simp [clearsTalking, hh])
    by_cases hc : cid = selfId
    · simpa [stepEvent, voiceUserLeft, hc] using hp
    · unfold stepEvent voiceUserLeft
      simp [hc]
      exact closePeerConnection_talking_ne _ (fun hh => hcp hh.symm) (by simpa using hp)
  | offerTimer cid o' g' =>
    cases hl : alookup cid s.peerConnections with
    | none => simpa [stepEvent, hl] using hp
    | some link => simpa [stepEvent, hl, createAndSendOffer_talkingUsers] using hp
  | iceGathered cid c => simpa [stepEvent, onIceCandidate_fst] using hp
  | vadFrame samples => simpa [stepEvent, detectVoiceActivityFrame_fst] using hp
  | muteOn => simpa [stepEvent, onMuteTrue_talkingUsers] using hp
  | unmuteStream stream o' g' =>
    simpa [stepEvent, initializeLocalStream_talkingUsers] using hp
  | micError => simpa [stepEvent, micAccessError] using hp

/-- The voice-activity monitor only ever broadcasts `speaking: true`; no
silence event exists. -/
theorem detectVoiceActivityFrame_only_true (s : VoiceChatState) (samples : List Nat)
    {m : OutMsg} (hm : m ∈ (detectVoiceActivityFrame s samples).snd) :
    m.signal = Signal.speaking true := by
  by_cases h : 20 * samples.length < samples.sum
  · simp [detectVoiceActivityFrame, h] at hm
    obtain ⟨pl, _, hpl⟩ := hm
    rw [hpl.symm]
  · simp [detectVoiceActivityFrame, h] at hm

/-- Effect of the unmute loop body on the entry it processes: stale audio
senders removed, fresh tracks added, fresh offer pending, and exactly one
offer message appended. -/
theorem streamPeerStep_self (st : List Track) (o : PeerId → Nat) (g : PeerId → List Nat)
    (acc : VoiceChatState × List OutMsg) (p : PeerId) {link : PeerConnection}
    (h : alookup p acc.fst.peerConnections = some link) :
    alookup p (streamPeerStep st o g acc p).fst.peerConnections
        = some (streamTransform st o g p link)
      ∧ (streamPeerStep st o g acc p).snd = acc.snd ++ [offerMsgFor o g p] := by
  simp [streamPeerStep, h, createAndSendOffer, alookup_aset_self, setLocalDescription,
        attachGathered, RTCPeerConnection.localDescription, streamTransform, offerMsgFor]

/-- Running the unmute loop over a duplicate-free key list transforms the
entry of every listed key and emits its offer message. -/
theorem foldl_streamPeerStep_result (st : List Track) (o : PeerId → Nat)
    (g : PeerId → List Nat) :
    ∀ (ks : List PeerId) (acc : VoiceChatState × List OutMsg) (p : PeerId)
      (link : PeerConnection), ks.Nodup → p ∈ ks →
      alookup p acc.fst.peerConnections = some link →
      alookup p ((ks.foldl (streamPeerStep st o g) acc)).fst.peerConnections
          = some (streamTransform st o g p link)
        ∧ offerMsgFor o g p ∈ (ks.foldl (streamPeerStep st o g) acc).snd := by
  intro ks
  induction ks with
  | nil =>
    intro acc p link _ hp
    cases hp
  | cons k rest ih =>
    intro acc p link hnd hp h
    rw [List.foldl_cons]
    rcases List.mem_cons.mp hp with hpk | hpr
    · subst hpk
      have hstep := streamPeerStep_self st o g acc p h
      have hrest : p ∉ rest := (List.nodup_cons.mp hnd).1
      refine foldl_preserve_of_mem
        (P := fun b : VoiceChatState × List OutMsg =>
          alookup p b.fst.peerConnections = some (streamTransform st o g p link)
            ∧ offerMsgFor o g p ∈ b.snd) rest ?_ _ ?_
      · intro b a ha hb
        have hap : p ≠ a := fun hh => hrest (hh ▸ ha)
        refine ⟨?_, streamPeerStep_snd_mono st o g b a hb.2⟩
        rw [streamPeerStep_lookup_ne st o g b hap]
        exact hb.1
      · refine ⟨hstep.1, ?_⟩
        rw [hstep.2]
        exact List.mem_append_right _ (List.mem_singleton.mpr rfl)
    · have hpk : p ≠ k := by
        intro hh
        exact (List.nodup_cons.mp hnd).1 (hh ▸ hpr)
      have h' : alookup p (streamPeerStep st o g acc k).fst.peerConnections = some link := by
        rw [streamPeerStep_lookup_ne st o g acc hpk]
        exact h
      exact ih _ p link (List.nodup_cons.mp hnd).2 hpr h'

/-- The have-local-offer state is exactly the presence of a pending local
description. -/
theorem signalingState_haveLocalOffer_iff {pc : RTCPeerConnection} :
    pc.signalingState = SigState.haveLocalOffer ↔ pc.pendingLocal.isSome := by
  cases hl : pc.pendingLocal <;> cases hr : pc.pendingRemote <;>
    simp [RTCPeerConnection.signalingState, hl, hr]

/-- Whatever the prior state of the connection, responding to an offer
sends exactly one answer message carrying the gathered candidates. -/
theorem handleOffer_snd (s : VoiceChatState) (p : PeerId) (offer : Description)
    (a : Nat) (g : List Nat) (hoff : offer.dtype = DescType.offer) :
    (handleOffer s p offer a g).snd
      = [{ targetClientId := p,
           signal := Signal.desc { dtype := DescType.answer, sdp := a, cands := g } }] := by
  unfold handleOffer
  by_cases hs : (createPeerConnection s p).snd.connection.signalingState = SigState.stable <;>
    simp [hs, hoff, setLocalDescription, setRemoteDescription, attachGathered,
          RTCPeerConnection.localDescription, rollbackDesc]

/-! Claim theorems. -/

/-- C2: at most one PeerLink exists per (local instance, remote
participant) pair: the map never holds two entries for one peer id —
`createPeerConnection` returns the existing entry untouched when one
exists, `handleOffer` on a known peer adds no key, and every event
handler preserves the one-entry-per-peer-id shape of the map. -/
theorem peerLink_unique_per_peer (selfId : PeerId) (s : VoiceChatState) :
    (∀ (p : PeerId) (link : PeerConnection),
        alookup p s.peerConnections = some link → createPeerConnection s p = (s, link)) ∧
    (∀ (p : PeerId) (offer : Description) (a : Nat) (g : List Nat),
        (alookup p s.peerConnections).isSome →
        keys (handleOffer s p offer a g).fst.peerConnections = keys s.peerConnections) ∧
    (∀ e : Event, keysNodup s.peerConnections →
        keysNodup (stepEvent selfId s e).fst.peerConnections) := by
  refine ⟨?_, ?_, ?_⟩
  · intro p link h
    simp [createPeerConnection, h]
  · intro p offer a g h
    obtain ⟨link, hl⟩ := Option.isSome_iff_exists.mp h
    simp only [handleOffer, createPeerConnection, hl]
    exact keys_aset_of_mem _ (mem_keys_of_alookup hl)
  · intro e h
    exact stepEvent_keysNodup selfId s e h

/-- C2 witness: concrete instantiation of the uniqueness contract. -/
theorem peerLink_unique_per_peer_witness :
    alookup "d" stateD.peerConnections = some linkIdle ∧
    createPeerConnection stateD "d" = (stateD, linkIdle) ∧
    keysNodup stateD.peerConnections ∧
    keysNodup (stepEvent "a" stateD (Event.userJoined "b")).fst.peerConnections :=
  ⟨rfl, (peerLink_unique_per_peer "a" stateD).1 "d" linkIdle rfl,
   by simp [keysNodup, keys, stateD],
   (peerLink_unique_per_peer "a" stateD).2.2 (Event.userJoined "b")
     (by simp [keysNodup, keys, stateD])⟩

/-- C3: an incoming answer is applied (remote description set, moving the
link to stable) only when a link for the sender exists in exactly the
have-local-offer state; in any other state, or for an unknown peer, the
message is discarded with the state unchanged. -/
theorem answer_applied_only_in_have_local_offer (s : VoiceChatState) (p : PeerId)
    (answer : Description) :
    (∀ link : PeerConnection, alookup p s.peerConnections = some link →
        link.connection.signalingState = SigState.haveLocalOffer →
        (handleAnswer s p answer).fst.peerConnections
            = aset p { link with connection := setRemoteDescription link.connection answer }
                s.peerConnections
          ∧ (handleAnswer s p answer).snd = []
          ∧ (answer.dtype = DescType.answer →
              (setRemoteDescription link.connection answer).signalingState = SigState.stable)) ∧
    (∀ link : PeerConnection, alookup p s.peerConnections = some link →
        link.connection.signalingState ≠ SigState.haveLocalOffer →
        handleAnswer s p answer = (s, [])) ∧
    (alookup p s.peerConnections = none → handleAnswer s p answer = (s, [])) := by
  refine ⟨?_, ?_, ?_⟩
  · intro link hl hs
    refine ⟨by simp [handleAnswer, hl, hs], by simp [handleAnswer, hl, hs], ?_⟩
    intro hd
    obtain ⟨l0, hl0⟩ := Option.isSome_iff_exists.mp (signalingState_haveLocalOffer_iff.mp hs)
    simp [setRemoteDescription, hd, hl0, RTCPeerConnection.signalingState]
  · intro link hl hs
    simp [handleAnswer, hl, hs]
  · intro hl
    simp [handleAnswer, hl]

/-- C3 witness: the accepting and the discarding case on concrete
states. -/
theorem answer_applied_only_in_have_local_offer_witness :
    alookup "b" stateOffered.peerConnections = some linkOffered ∧
    linkOffered.connection.signalingState = SigState.haveLocalOffer ∧
    (handleAnswer stateOffered "b" answerB).snd = [] ∧
    answerB.dtype = DescType.answer ∧
    (setRemoteDescription linkOffered.connection answerB).signalingState = SigState.stable ∧
    alookup "d" stateD.peerConnections = some linkIdle ∧
    linkIdle.connection.signalingState ≠ SigState.haveLocalOffer ∧
    handleAnswer stateD "d" answerB = (stateD, []) :=
  ⟨rfl, by decide,
   ((answer_applied_only_in_have_local_offer stateOffered "b" answerB).1 linkOffered rfl
     (by decide)).2.1,
   rfl,
   ((answer_applied_only_in_have_local_offer stateOffered "b" answerB).1 linkOffered rfl
     (by decide)).2.2 rfl,
   rfl, by decide,
   (answer_applied_only_in_have_local_offer stateD "d" answerB).2.1 linkIdle rfl (by decide)⟩

/-- C4: an offer arriving while a local offer is outstanding first rolls
back, then sets the remote description, then creates and sets a local
answer, and sends that answer (with the gathered candidates) back to the
offering peer; the resulting link is stable with the incoming offer as
remote description. -/
theorem offer_glare_rollback_responder (s : VoiceChatState) (p : PeerId)
    (offer : Description) (a : Nat) (g : List Nat) (link : PeerConnection)
    (hl : alookup p s.peerConnections = some link)
    (hns : link.connection.signalingState ≠ SigState.stable)
    (hoff : offer.dtype = DescType.offer) :
    alookup p (handleOffer s p offer a g).fst.peerConnections
        = some { link with connection := glareResponderPC link.connection offer a g }
      ∧ (glareResponderPC link.connection offer a g).signalingState = SigState.stable
      ∧ (glareResponderPC link.connection offer a g).currentRemote = some offer
      ∧ (handleOffer s p offer a g).snd
          = [{ targetClientId := p,
               signal := Signal.desc { dtype := DescType.answer, sdp := a, cands := g } }] := by
  refine ⟨?_, ?_, ?_, handleOffer_snd s p offer a g hoff⟩
  · simp [handleOffer, createPeerConnection, hl, hns, glareResponderPC, alookup_aset_self,
          setLocalDescription, setRemoteDescription, attachGathered, rollbackDesc, hoff,
          RTCPeerConnection.localDescription]
  · simp [glareResponderPC, setLocalDescription, setRemoteDescription, attachGathered,
          rollbackDesc, hoff, RTCPeerConnection.signalingState]
  · simp [glareResponderPC, setLocalDescription, setRemoteDescription, attachGathered,
          rollbackDesc, hoff]

/-- C4 witness: simultaneous-offer resolution from a concrete
have-local-offer state. -/
theorem offer_glare_rollback_responder_witness :
    alookup "b" stateOffered.peerConnections = some linkOffered ∧
    linkOffered.connection.signalingState ≠ SigState.stable ∧
    offerB.dtype = DescType.offer ∧
    (glareResponderPC linkOffered.connection offerB 2 [9]).signalingState = SigState.stable ∧
    (handleOffer stateOffered "b" offerB 2 [9]).snd
      = [{ targetClientId := "b",
           signal := Signal.desc { dtype := DescType.answer, sdp := 2, cands := [9] } }] :=
  ⟨rfl, by decide, rfl,
   (offer_glare_rollback_responder stateOffered "b" offerB 2 [9] linkOffered rfl
     (by decide) rfl).2.1,
   (offer_glare_rollback_responder stateOffered "b" offerB 2 [9] linkOffered rfl
     (by decide) rfl).2.2.2⟩

/-- C7: an ICE candidate for an unknown peer, or one arriving before a
remote description exists, is dropped without queueing; in every case the
handler sends nothing and never creates a PeerLink. -/
theorem ice_candidate_dropped_without_side_effects (s : VoiceChatState) (p : PeerId)
    (c : Nat) :
    keys (handleIceCandidate s p c).fst.peerConnections = keys s.peerConnections ∧
    (handleIceCandidate s p c).snd = [] ∧
    (alookup p s.peerConnections = none → handleIceCandidate s p c = (s, [])) ∧
    (∀ link : PeerConnection, alookup p s.peerConnections = some link →
        link.connection.remoteDescription = none → handleIceCandidate s p c = (s, [])) := by
  refine ⟨?_, ?_, ?_, ?_⟩
  · cases hl : alookup p s.peerConnections with
    | none => simp [handleIceCandidate, hl]
    | some link =>
      cases hr : link.connection.remoteDescription with
      | none => simp [handleIceCandidate, hl, hr]
      | some d =>
        simp [handleIceCandidate, hl, hr]
        exact keys_aset_of_mem _ (mem_keys_of_alookup hl)
  · cases hl : alookup p s.peerConnections with
    | none => simp [handleIceCandidate, hl]
    | some link =>
      cases hr : link.connection.remoteDescription with
      | none => simp [handleIceCandidate, hl, hr]
      | some d => simp [handleIceCandidate, hl, hr]
  · intro hl
    simp [handleIceCandidate, hl]
  · intro link hl hr
    simp [handleIceCandidate, hl, hr]

/-- C7 witness: a candidate for a closed (absent) peer and one arriving
before any remote description, both dropped with nothing changed. -/
theorem ice_candidate_dropped_without_side_effects_witness :
    alookup "c" stateD.peerConnections = none ∧
    handleIceCandidate stateD "c" 7 = (stateD, []) ∧
    alookup "d" stateD.peerConnections = some linkIdle ∧
    linkIdle.connection.remoteDescription = none ∧
    handleIceCandidate stateD "d" 7 = (stateD, []) :=
  ⟨rfl, (ice_candidate_dropped_without_side_effects stateD "c" 7).2.2.1 rfl,
   rfl, rfl,
   (ice_candidate_dropped_without_side_effects stateD "d" 7).2.2.2 linkIdle rfl rfl⟩

/-- C8: on unmute, every existing PeerLink first has its stale audio
senders removed, then the fresh capture tracks added, then a fresh offer
created and sent (a full renegotiation); afterwards the link's audio
senders are exactly the capture stream's audio tracks, so no track is
attached twice. -/
theorem unmute_renegotiates_each_link (s : VoiceChatState) (stream : List Track)
    (o : PeerId → Nat) (g : PeerId → List Nat) (p : PeerId) (link : PeerConnection)
    (hnd : keysNodup s.peerConnections)
    (hl : alookup p s.peerConnections = some link) :
    alookup p (initializeLocalStream s stream o g).fst.peerConnections
        = some (streamTransform stream o g p link)
      ∧ offerMsgFor o g p ∈ (initializeLocalStream s stream o g).snd
      ∧ (streamTransform stream o g p link).connection.senders.filter Track.isAudio
          = audioTracks stream := by
  have hfilter : (streamTransform stream o g p link).connection.senders.filter Track.isAudio
      = audioTracks stream := by
    simp [streamTransform, audioTracks, List.filter_append, List.filter_filter]
  rw [initializeLocalStream_def]
  have hks : (keys ({ s with localStream := some stream } : VoiceChatState).peerConnections).Nodup := by
    simpa [keysNodup] using hnd
  have hmem : p ∈ keys ({ s with localStream := some stream } : VoiceChatState).peerConnections := by
    simpa using mem_keys_of_alookup hl
  have hacc : alookup p
      ((({ s with localStream := some stream } : VoiceChatState), ([] : List OutMsg))).fst.peerConnections
        = some link := by
    simpa using hl
  have h1 := foldl_streamPeerStep_result stream o g
    (keys ({ s with localStream := some stream } : VoiceChatState).peerConnections)
    (({ s with localStream := some stream } : VoiceChatState), ([] : List OutMsg))
    p link hks hmem hacc
  split
  · exact ⟨h1.1, h1.2, hfilter⟩
  · refine ⟨?_, ?_, hfilter⟩
    · exact foldl_preserve_of_mem
        (P := fun b : VoiceChatState × List OutMsg =>
          alookup p b.fst.peerConnections = some (streamTransform stream o g p link)) _
        (fun b a _ hb => streamMissingUserStep_lookup_eq o g b a hb) _ h1.1
    · exact foldl_preserve_of_mem
        (P := fun b : VoiceChatState × List OutMsg => offerMsgFor o g p ∈ b.snd) _
        (fun b a _ hb => streamMissingUserStep_snd_mono o g b a hb) _ h1.2

/-- C8 witness: a concrete unmute renegotiation against one existing
link. -/
theorem unmute_renegotiates_each_link_witness :
    keysNodup stateMute.peerConnections ∧
    alookup "b" stateMute.peerConnections = some linkWithSender ∧
    alookup "b"
        (initializeLocalStream stateMute [trackMic] (fun _ => 3) (fun _ => [8])).fst.peerConnections
      = some (streamTransform [trackMic] (fun _ => 3) (fun _ => [8]) "b" linkWithSender) ∧
    offerMsgFor (fun _ => 3) (fun _ => [8]) "b"
      ∈ (initializeLocalStream stateMute [trackMic] (fun _ => 3) (fun _ => [8])).snd :=
  ⟨by decide, rfl,
   (unmute_renegotiates_each_link stateMute [trackMic] (fun _ => 3) (fun _ => [8]) "b"
      linkWithSender (by decide) rfl).1,
   (unmute_renegotiates_each_link stateMute [trackMic] (fun _ => 3) (fun _ => [8]) "b"
      linkWithSender (by decide) rfl).2.1⟩

/-- C10: an offer from a peer with no PeerLink implicitly creates the
link (with its audio sink) and completes the responder flow — a single
answer is sent back and the presence set plays no role (it is
unchanged). -/
theorem offer_creates_link_without_presence (s : VoiceChatState) (p : PeerId)
    (offer : Description) (a : Nat) (g : List Nat)
    (hnone : alookup p s.peerConnections = none) (hoff : offer.dtype = DescType.offer) :
    (alookup p (handleOffer s p offer a g).fst.peerConnections).isSome ∧
    (∀ link : PeerConnection,
        alookup p (handleOffer s p offer a g).fst.peerConnections = some link →
        link.audio = newAudioElement s.isAudioEnabled ∧
        link.connection.signalingState = SigState.stable ∧
        link.connection.currentRemote = some offer) ∧
    (handleOffer s p offer a g).snd
      = [{ targetClientId := p,
           signal := Signal.desc { dtype := DescType.answer, sdp := a, cands := g } }] ∧
    (handleOffer s p offer a g).fst.activeUsers = s.activeUsers := by
  have hres : alookup p (handleOffer s p offer a g).fst.peerConnections
      = some (respondedLink s offer a g) := by
    simp [handleOffer, createPeerConnection, hnone, newRTCPeerConnection,
          RTCPeerConnection.signalingState, setRemoteDescription, setLocalDescription,
          attachGathered, hoff, alookup_aset_self, RTCPeerConnection.localDescription,
          respondedLink]
  refine ⟨by rw [hres]; rfl, ?_, handleOffer_snd s p offer a g hoff,
          handleOffer_activeUsers s p offer a g⟩
  intro link hlk
  rw [hres] at hlk
  obtain rfl : _ = link := Option.some.inj hlk
  exact ⟨rfl, rfl, rfl⟩

/-- C10 witness: an offer from unknown peer e creates its link and is
answered. -/
theorem offer_creates_link_without_presence_witness :
    alookup "e" stateD.peerConnections = none ∧
    offerB.dtype = DescType.offer ∧
    (alookup "e" (handleOffer stateD "e" offerB 2 [9]).fst.peerConnections).isSome ∧
    (handleOffer stateD "e" offerB 2 [9]).snd
      = [{ targetClientId := "e",
           signal := Signal.desc { dtype := DescType.answer, sdp := 2, cands := [9] } }] ∧
    (handleOffer stateD "e" offerB 2 [9]).fst.activeUsers = stateD.activeUsers :=
  ⟨rfl, rfl,
   (offer_creates_link_without_presence stateD "e" offerB 2 [9] rfl rfl).1,
   (offer_creates_link_without_presence stateD "e" offerB 2 [9] rfl rfl).2.2.1,
   (offer_creates_link_without_presence stateD "e" offerB 2 [9] rfl rfl).2.2.2⟩

/-- C1 counterexample: the claimed TTL removal does not exist in the
code.  From a state in which participant d is present with an open
PeerLink, an event-free interval of 61 seconds (no explicit presence
event about d is delivered, exactly the situation after d silently stops
heartbeating) leaves d in the active set with its link open. -/
theorem heartbeat_timeout_not_implemented : ¬ heartbeatTTLRemoval := by
  intro h
  have h1 := h "a" stateD "d" [] 61000 (by decide)
    (by intro te hte; cases hte) (by intro te hte; cases hte) (by decide)
  exact h1.1 (by decide)

/-- C1 (amended): the voice presence route treats heartbeats as complete
no-ops — it is stateless and broadcasts nothing for them, so no TTL-based
expiry exists for voice presence.  A participant is removed from another
instance's active set, and its PeerLink closed, only when an explicit
voice-user-left event for it arrives (which the route emits only for a
leave POST). -/
theorem presence_removal_only_on_leave (selfId : PeerId) (s : VoiceChatState)
    (e : Event) (d : PeerId) (sid cid : String) :
    (sid ≠ "" → cid ≠ "" →
        VoicePresence.POST (some sid) (some cid) (some "heartbeat")
          = PresenceResponse.ok []) ∧
    (d ∈ s.activeUsers → e ≠ Event.userLeft d →
        d ∈ (stepEvent selfId s e).fst.activeUsers) ∧
    ((alookup d s.peerConnections).isSome → e ≠ Event.userLeft d →
        (alookup d (stepEvent selfId s e).fst.peerConnections).isSome) := by
  refine ⟨?_, ?_, ?_⟩
  · intro h1 h2
    simp [VoicePresence.POST, falsyStr, h1, h2]
  · exact fun hd he => stepEvent_activeUsers_persist selfId s e hd he
  · exact fun hd he => stepEvent_lookup_persist selfId s e hd he

/-- C1 amended witness: a heartbeat POST broadcasts nothing, and a
foreign event leaves d present with its link. -/
theorem presence_removal_only_on_leave_witness :
    ("s1" : String) ≠ "" ∧ ("d" : String) ≠ "" ∧
    VoicePresence.POST (some "s1") (some "d") (some "heartbeat") = PresenceResponse.ok [] ∧
    "d" ∈ stateD.activeUsers ∧
    Event.userJoined "x" ≠ Event.userLeft "d" ∧
    "d" ∈ (stepEvent "a" stateD (Event.userJoined "x")).fst.activeUsers ∧
    (alookup "d" (stepEvent "a" stateD (Event.userJoined "x")).fst.peerConnections).isSome :=
  ⟨by decide, by decide,
   (presence_removal_only_on_leave "a" stateD (Event.userJoined "x") "d" "s1" "d").1
     (by decide) (by decide),
   by decide, fun hh => Event.noConfusion hh,
   (presence_removal_only_on_leave "a" stateD (Event.userJoined "x") "d" "s1" "d").2.1
     (by decide) (fun hh => Event.noConfusion hh),
   (presence_removal_only_on_leave "a" stateD (Event.userJoined "x") "d" "s1" "d").2.2
     (by decide) (fun hh => Event.noConfusion hh)⟩

/-- C5 counterexample: muting does not remove the audio senders from the
open PeerLinks — on a concrete state with one link carrying the
microphone track, the track is still attached as a sender after the mute
handler runs. -/
theorem mute_contract_counterexample : ¬ muteContractAsSpecified := by
  intro h
  have h1 := (h stateMute [trackMic] rfl).1 "b" linkWithSender (by decide)
  exact absurd h1 (by decide)

/-- C5 (amended): on local mute every capture track is stopped and the
stream released (no dangling stream), a mute event is broadcast to every
peer, and the PeerLink map is completely untouched — each link keeps its
negotiation state AND its now-stale audio senders; those senders are only
removed on the next unmute. -/
theorem mute_stops_capture_and_broadcasts (s : VoiceChatState) (stream : List Track)
    (h : s.localStream = some stream) :
    (onMuteTrue s).fst.localStream = none ∧
    (onMuteTrue s).fst.stoppedTracks = s.stoppedTracks ++ stream ∧
    (onMuteTrue s).fst.isMuted = true ∧
    (onMuteTrue s).snd
      = s.peerConnections.map (fun pl => { targetClientId := pl.fst, signal := Signal.mute }) ∧
    (onMuteTrue s).fst.peerConnections = s.peerConnections := by
  simp [onMuteTrue, h]

/-- C5 amended witness: muting the concrete live-stream state. -/
theorem mute_stops_capture_and_broadcasts_witness :
    stateMute.localStream = some [trackMic] ∧
    (onMuteTrue stateMute).fst.localStream = none ∧
    (onMuteTrue stateMute).fst.stoppedTracks = stateMute.stoppedTracks ++ [trackMic] ∧
    (onMuteTrue stateMute).fst.peerConnections = stateMute.peerConnections :=
  ⟨rfl,
   (mute_stops_capture_and_broadcasts stateMute [trackMic] rfl).1,
   (mute_stops_capture_and_broadcasts stateMute [trackMic] rfl).2.1,
   (mute_stops_capture_and_broadcasts stateMute [trackMic] rfl).2.2.2.2⟩

/-- C6 counterexample: trickle ICE is used — the onicecandidate handler
sends a gathered candidate as its own signaling message, refuting the
claim that no separate per-candidate messages are sent. -/
theorem trickle_ice_counterexample : ¬ iceBatchingAsSpecified := by
  intro h
  have h2 := h.2 stateD "b" (some 7)
  simp [onIceCandidate] at h2

/-- C6 (amended): each offer and each answer is sent as one signaling
message carrying all candidates gathered until gathering completed or the
2-second timeout fired, but trickle ICE is additionally used: the
onicecandidate callback sends every individually gathered candidate as
its own signaling message. -/
theorem ice_batched_and_trickled (s : VoiceChatState) (p : PeerId) (sdp a : Nat)
    (g : List Nat) (c : Nat) (offer : Description) (link : PeerConnection) :
    (alookup p s.peerConnections = some link →
        (createAndSendOffer s p sdp g).snd
          = [{ targetClientId := p,
               signal := Signal.desc { dtype := DescType.offer, sdp := sdp, cands := g } }]) ∧
    (offer.dtype = DescType.offer →
        (handleOffer s p offer a g).snd
          = [{ targetClientId := p,
               signal := Signal.desc { dtype := DescType.answer, sdp := a, cands := g } }]) ∧
    (onIceCandidate s p (some c)).snd
      = [{ targetClientId := p, signal := Signal.candidate c }] := by
  refine ⟨?_, fun hoff => handleOffer_snd s p offer a g hoff, rfl⟩
  intro hl
  simp [createAndSendOffer, hl, setLocalDescription, attachGathered,
        RTCPeerConnection.localDescription]

/-- C6 amended witness: one batched offer plus one trickled candidate on
concrete states. -/
theorem ice_batched_and_trickled_witness :
    alookup "b" stateOffered.peerConnections = some linkOffered ∧
    (createAndSendOffer stateOffered "b" 1 [9]).snd
      = [{ targetClientId := "b",
           signal := Signal.desc { dtype := DescType.offer, sdp := 1, cands := [9] } }] ∧
    offerB.dtype = DescType.offer ∧
    (handleOffer stateOffered "b" offerB 2 [9]).snd
      = [{ targetClientId := "b",
           signal := Signal.desc { dtype := DescType.answer, sdp := 2, cands := [9] } }] ∧
    (onIceCandidate stateOffered "b" (some 7)).snd
      = [{ targetClientId := "b", signal := Signal.candidate 7 }] :=
  ⟨rfl,
   (ice_batched_and_trickled stateOffered "b" 1 2 [9] 7 offerB linkOffered).1 rfl,
   rfl,
   (ice_batched_and_trickled stateOffered "b" 1 2 [9] 7 offerB linkOffered).2.1 rfl,
   (ice_batched_and_trickled stateOffered "b" 1 2 [9] 7 offerB linkOffered).2.2⟩

/-- C9 counterexample: there is no indicator timeout — from a state with
p marked talking, two event-free seconds (no further speaking event from
p) leave the indicator set. -/
theorem talking_timeout_counterexample : ¬ talkingIndicatorTimeout := by
  intro h
  have h1 := h "a" stateTalking "p" [] 2000 (by decide)
    (by intro te hte; cases hte) (by intro te hte; cases hte) (by decide)
  exact h1 (by decide)

/-- C9 (amended): the talking indicator has no timeout: it is cleared
only by an explicit speaking-false signal from that participant or by the
participant's departure; and since the voice-activity monitor only ever
broadcasts speaking-true, in practice only departure clears it. -/
theorem talking_cleared_only_explicitly (selfId : PeerId) (s : VoiceChatState)
    (e : Event) (p : PeerId) (samples : List Nat) :
    (p ∈ s.talkingUsers → ¬ clearsTalking selfId p e →
        p ∈ (stepEvent selfId s e).fst.talkingUsers) ∧
    (∀ m ∈ (detectVoiceActivityFrame s samples).snd, m.signal = Signal.speaking true) :=
  ⟨fun hp he => stepEvent_talking_persist selfId s e hp he,
   fun _ hm => detectVoiceActivityFrame_only_true s samples hm⟩

/-- C9 amended witness: the indicator survives an unrelated event on a
concrete state. -/
theorem talking_cleared_only_explicitly_witness :
    "p" ∈ stateTalking.talkingUsers ∧
    ¬ clearsTalking "a" "p" (Event.userJoined "x") ∧
    "p" ∈ (stepEvent "a" stateTalking (Event.userJoined "x")).fst.talkingUsers :=
  ⟨by decide, by simp [clearsTalking],
   (talking_cleared_only_explicitly "a" stateTalking (Event.userJoined "x") "p" []).1
     (by decide) (by simp [clearsTalking])⟩

end XCC
